import Mathlib

/-!
Verification of the per-symbol trading FSM, signal tracker and trade engine
of an Angular trading dashboard, against a shallow embedding of its
TypeScript sources.

Conventions of the embedding:
- JS `number` prices and P&L values are rationals (ℚ); epoch-millisecond
  timestamps are naturals (ℕ).
- `number | null` fields are `Option` values.
- JS `Map` objects are association lists (`List (String × α)`) whose
  `set` replaces the first binding in place, as `Map.set` does.
- `new Date(ms).getSeconds()` and minute arithmetic use the operator local
  timezone (IST, a whole-minute UTC offset), so the second-of-minute is
  `ms / 1000 % 60` and epoch minutes `ms / 60000` order the local minutes.
- Logging calls are dropped; calls that leave the reducer (broker order
  POST, FSM snapshot write-back, cumulative reset on the shared subject)
  are recorded as explicit emitted events.
-/

namespace TradingFsm

/-- FSM state, from the `FsmState` string union of the tick services. -/
inductive FsmState where
  | NOSIGNAL
  | NOPOSITION_SIGNAL
  | BUYPOSITION
  | SELLPOSITION
  | NOPOSITION_BLOCKED
deriving DecidableEq, Repr

/-- `InstrumentFsm` record of the tick runner services. -/
structure InstrumentFsm where
  state : FsmState
  threshold : Option ℚ
  savedBUYThreshold : Option ℚ
  lastBUYThreshold : Option ℚ
  lastSELLThreshold : Option ℚ
  lastSignalAtMs : Option ℕ
  lastCheckedAtMs : Option ℕ
  lastBlockedAtMs : Option ℕ
deriving DecidableEq, Repr

/-- `defaultFsm()` of the runner services: NOSIGNAL with all fields null. -/
def defaultFsm : InstrumentFsm :=
  { state := .NOSIGNAL
    threshold := none
    savedBUYThreshold := none
    lastBUYThreshold := none
    lastSELLThreshold := none
    lastSignalAtMs := none
    lastCheckedAtMs := none
    lastBlockedAtMs := none }

/-- Result record `{ next, intermediate? }` of `applyTickTransition`. -/
structure TickTransitionResult where
  next : InstrumentFsm
  intermediate : Option InstrumentFsm
deriving DecidableEq, Repr

/-- Epoch minute of a millisecond timestamp: `Math.floor(ms / 60000)`. -/
def minuteOf (ms : ℕ) : ℕ := ms / 60000

/-- Second of the minute of a millisecond timestamp: what
`new Date(ms).getSeconds()` returns in a timezone whose UTC offset is a
whole number of minutes (IST is UTC+5:30). -/
def secondOf (ms : ℕ) : ℕ := ms / 1000 % 60

/-- `isFirstSecondNextMinute` of the tick runner services: true when the
tick falls in the first second of a minute strictly after the minute of the
anchor timestamp. -/
def isFirstSecondNextMinute (anchorAtMs : Option ℕ) (tickAtMs : ℕ) : Bool :=
  match anchorAtMs with
  | none => false
  | some anchor =>
    if minuteOf tickAtMs ≤ minuteOf anchor then false
    else decide (secondOf tickAtMs = 0)

/-- The guard `lastCheckedAtMs !== null && lastCheckedAtMs >= lastSignalAtMs`
of the NOPOSITION_SIGNAL branch. -/
def checkedAlready (lastCheckedAtMs : Option ℕ) (lastSignalAt : ℕ) : Bool :=
  match lastCheckedAtMs with
  | some c => decide (lastSignalAt ≤ c)
  | none => false

/-- `applyTickTransition` shared verbatim (up to logging and a symbol
argument used only for logs) by BtcLongFsmService, ZerodhaTickRunnerService
and TickComponent. Note that the source dispatches only on BUYPOSITION,
NOPOSITION_SIGNAL and NOPOSITION_BLOCKED; NOSIGNAL and SELLPOSITION fall
through to the trailing `return \x7b next: current \x7d`. -/
def applyTickTransition (current : InstrumentFsm) (ltp : Option ℚ)
    (receivedAt : ℕ) : TickTransitionResult :=
  match current.threshold, current.lastSignalAtMs, ltp with
  | some threshold, some lastSignalAt, some lv =>
    match current.state with
    | .BUYPOSITION =>
      if lv ≥ threshold then
        { next := current, intermediate := none }
      else
        { next := { current with
            state := .NOPOSITION_BLOCKED
            lastCheckedAtMs := some receivedAt
            lastBlockedAtMs := some receivedAt }
          intermediate := none }
    | .NOPOSITION_SIGNAL =>
      if checkedAlready current.lastCheckedAtMs lastSignalAt then
        { next := current, intermediate := none }
      else
        let nextState : FsmState :=
          if lv > threshold then .BUYPOSITION else .NOPOSITION_BLOCKED
        { next := { current with
            state := nextState
            lastCheckedAtMs := some receivedAt
            lastBlockedAtMs :=
              if nextState = .NOPOSITION_BLOCKED then some receivedAt else none }
          intermediate := none }
    | .NOPOSITION_BLOCKED =>
      if isFirstSecondNextMinute current.lastBlockedAtMs receivedAt then
        let intermediate : InstrumentFsm := { current with
          state := .NOPOSITION_SIGNAL
          lastSignalAtMs := some receivedAt
          lastCheckedAtMs := none
          lastBlockedAtMs := none }
        let nextState : FsmState :=
          if lv > threshold then .BUYPOSITION else .NOPOSITION_BLOCKED
        { next := { intermediate with
            state := nextState
            lastCheckedAtMs := some receivedAt
            lastBlockedAtMs :=
              if nextState = .NOPOSITION_BLOCKED then some receivedAt else none }
          intermediate := some intermediate }
      else
        { next := current, intermediate := none }
    | _ => { next := current, intermediate := none }
  | _, _, _ => { next := current, intermediate := none }

/-- Signal direction. -/
inductive Signal where
  | BUY
  | SELL
deriving DecidableEq, Repr

/-- `isPositionState` of the runner services. -/
def isPositionState (s : FsmState) : Bool :=
  s = .BUYPOSITION ∨ s = .SELLPOSITION

/-- `applySignalTransition` of ZerodhaTickRunnerService and TickComponent.
`stoppx` is the numeric stop price of the payload if present (the source
tests `typeof payload.stoppx === number`), `latestLtp` the last known price
for the instrument. When already in a position state only the thresholds
and `lastSignalAtMs` are updated; otherwise the FSM re-enters
NOPOSITION_SIGNAL. -/
def applySignalTransition (current : InstrumentFsm) (signal : Signal)
    (stoppx : Option ℚ) (latestLtp : Option ℚ) (receivedAt : ℕ) : InstrumentFsm :=
  if isPositionState current.state then
    match signal with
    | .BUY =>
      let threshold : Option ℚ :=
        match stoppx with
        | some v => some v
        | none => current.threshold
      { current with
        threshold := threshold
        savedBUYThreshold := threshold
        lastBUYThreshold := threshold
        lastSignalAtMs := some receivedAt }
    | .SELL =>
      let threshold : Option ℚ :=
        match latestLtp with
        | some v => some v
        | none => current.threshold
      { current with
        threshold := threshold
        lastSELLThreshold := threshold
        lastSignalAtMs := some receivedAt }
  else
    match signal with
    | .BUY =>
      { state := .NOPOSITION_SIGNAL
        threshold := stoppx
        savedBUYThreshold := stoppx
        lastBUYThreshold := stoppx
        lastSELLThreshold := current.lastSELLThreshold
        lastSignalAtMs := some receivedAt
        lastCheckedAtMs := none
        lastBlockedAtMs := none }
    | .SELL =>
      { state := .NOPOSITION_SIGNAL
        threshold := latestLtp
        savedBUYThreshold := current.savedBUYThreshold
        lastBUYThreshold := current.lastBUYThreshold
        lastSELLThreshold := latestLtp
        lastSignalAtMs := some receivedAt
        lastCheckedAtMs := none
        lastBlockedAtMs := none }

/-- `applySignalTransition` of BtcLongFsmService: the same transition
without the in-position branch (the long runner always re-enters
NOPOSITION_SIGNAL on a signal). -/
def applySignalTransitionLong (current : InstrumentFsm) (signal : Signal)
    (stoppx : Option ℚ) (latestLtp : Option ℚ) (receivedAt : ℕ) : InstrumentFsm :=
  match signal with
  | .BUY =>
    { state := .NOPOSITION_SIGNAL
      threshold := stoppx
      savedBUYThreshold := stoppx
      lastBUYThreshold := stoppx
      lastSELLThreshold := current.lastSELLThreshold
      lastSignalAtMs := some receivedAt
      lastCheckedAtMs := none
      lastBlockedAtMs := none }
  | .SELL =>
    { state := .NOPOSITION_SIGNAL
      threshold := latestLtp
      savedBUYThreshold := current.savedBUYThreshold
      lastBUYThreshold := current.lastBUYThreshold
      lastSELLThreshold := latestLtp
      lastSignalAtMs := some receivedAt
      lastCheckedAtMs := none
      lastBlockedAtMs := none }

/-- Modelled from the spec: the short-side tick transition of
BtcShortFsmService. The file btc-short-fsm.service.ts is imported by app.ts
but is not among the given sources; the in-repo FSM document specifies, for
BTCUSDT_SHORT: NOPOSITION_SIGNAL goes to SELLPOSITION when LTP < threshold
and to NOPOSITION_BLOCKED otherwise; SELLPOSITION stays while
LTP ≤ threshold and leaves to NOPOSITION_BLOCKED otherwise; the common
rules (null preconditions are a no-op, NOPOSITION_BLOCKED re-checks only at
the first second of a later minute) are shared with the long runner. -/
def applyTickTransitionShortSpec (current : InstrumentFsm) (ltp : Option ℚ)
    (receivedAt : ℕ) : TickTransitionResult :=
  match current.threshold, current.lastSignalAtMs, ltp with
  | some threshold, some lastSignalAt, some lv =>
    match current.state with
    | .SELLPOSITION =>
      if lv ≤ threshold then
        { next := current, intermediate := none }
      else
        { next := { current with
            state := .NOPOSITION_BLOCKED
            lastCheckedAtMs := some receivedAt
            lastBlockedAtMs := some receivedAt }
          intermediate := none }
    | .NOPOSITION_SIGNAL =>
      if checkedAlready current.lastCheckedAtMs lastSignalAt then
        { next := current, intermediate := none }
      else
        let nextState : FsmState :=
          if lv < threshold then .SELLPOSITION else .NOPOSITION_BLOCKED
        { next := { current with
            state := nextState
            lastCheckedAtMs := some receivedAt
            lastBlockedAtMs :=
              if nextState = .NOPOSITION_BLOCKED then some receivedAt else none }
          intermediate := none }
    | .NOPOSITION_BLOCKED =>
      if isFirstSecondNextMinute current.lastBlockedAtMs receivedAt then
        let intermediate : InstrumentFsm := { current with
          state := .NOPOSITION_SIGNAL
          lastSignalAtMs := some receivedAt
          lastCheckedAtMs := none
          lastBlockedAtMs := none }
        let nextState : FsmState :=
          if lv < threshold then .SELLPOSITION else .NOPOSITION_BLOCKED
        { next := { intermediate with
            state := nextState
            lastCheckedAtMs := some receivedAt
            lastBlockedAtMs :=
              if nextState = .NOPOSITION_BLOCKED then some receivedAt else none }
          intermediate := some intermediate }
      else
        { next := current, intermediate := none }
    | _ => { next := current, intermediate := none }
  | _, _, _ => { next := current, intermediate := none }

end TradingFsm

namespace TradingFsm

/-- Helper: the first-second-of-a-later-minute test, unfolded. -/
lemma isFirstSecondNextMinute_some_iff (anchor tickAt : ℕ) :
    isFirstSecondNextMinute (some anchor) tickAt = true ↔
      (minuteOf anchor < minuteOf tickAt ∧ secondOf tickAt = 0) := by
  show (if minuteOf tickAt ≤ minuteOf anchor then false
    else decide (secondOf tickAt = 0)) = true ↔ _
  split_ifs with h
  · simp only [Bool.false_eq_true, false_iff, not_and]
    intro h1
    omega
  · rw [decide_eq_true_eq]
    exact ⟨fun hs => ⟨lt_of_not_le h, hs⟩, fun hp => hp.2⟩

/-- C1: tick transitions in BUYPOSITION and NOPOSITION_SIGNAL.  With
threshold, lastSignalAtMs and the tick price all non-null: BUYPOSITION
stays put when ltp ≥ threshold and moves to NOPOSITION_BLOCKED (recording
lastBlockedAtMs) when ltp < threshold; NOPOSITION_SIGNAL is a no-op when
lastCheckedAtMs is set and ≥ lastSignalAtMs, and otherwise moves to
BUYPOSITION when ltp > threshold and to NOPOSITION_BLOCKED otherwise; and
a tick with threshold, lastSignalAtMs or ltp null leaves the FSM
unchanged. -/
theorem c1_buy_and_signal_tick_rules
    (current : InstrumentFsm) (tv lv : ℚ) (sig receivedAt : ℕ)
    (hth : current.threshold = some tv)
    (hsig : current.lastSignalAtMs = some sig) :
    ((current.state = .BUYPOSITION →
        (tv ≤ lv →
          applyTickTransition current (some lv) receivedAt =
            { next := current, intermediate := none })
      ∧ (lv < tv →
          applyTickTransition current (some lv) receivedAt =
            { next := { current with
                state := .NOPOSITION_BLOCKED
                lastCheckedAtMs := some receivedAt
                lastBlockedAtMs := some receivedAt }
              intermediate := none }))
    ∧ (current.state = .NOPOSITION_SIGNAL →
        (checkedAlready current.lastCheckedAtMs sig = true →
          applyTickTransition current (some lv) receivedAt =
            { next := current, intermediate := none })
      ∧ (checkedAlready current.lastCheckedAtMs sig = false →
          (tv < lv →
            applyTickTransition current (some lv) receivedAt =
              { next := { current with
                  state := .BUYPOSITION
                  lastCheckedAtMs := some receivedAt
                  lastBlockedAtMs := none }
                intermediate := none })
        ∧ (lv ≤ tv →
            applyTickTransition current (some lv) receivedAt =
              { next := { current with
                  state := .NOPOSITION_BLOCKED
                  lastCheckedAtMs := some receivedAt
                  lastBlockedAtMs := some receivedAt }
                intermediate := none })))
    ∧ (∀ (c : InstrumentFsm) (l : Option ℚ) (t : ℕ),
        c.threshold = none ∨ c.lastSignalAtMs = none ∨ l = none →
        applyTickTransition c l t = { next := c, intermediate := none })) := by
  refine ⟨?_, ?_, ?_⟩
  · intro hstate
    constructor
    · intro hle
      simp only [applyTickTransition, hth, hsig, hstate, ge_iff_le, if_pos hle]
    · intro hlt
      simp only [applyTickTransition, hth, hsig, hstate, ge_iff_le,
        if_neg (not_le.mpr hlt)]
  · intro hstate
    constructor
    · intro hchk
      simp only [applyTickTransition, hth, hsig, hstate, hchk, if_true]
    · intro hchk
      constructor
      · intro hlt
        simp only [applyTickTransition, hth, hsig, hstate, hchk,
          Bool.false_eq_true, if_false, gt_iff_lt, if_pos hlt]
        simp
      · intro hle
        simp only [applyTickTransition, hth, hsig, hstate, hchk,
          Bool.false_eq_true, if_false, gt_iff_lt, if_neg (not_lt.mpr hle)]
        simp
  · intro c l t h
    rcases h with h | h | h
    · cases hsig2 : c.lastSignalAtMs <;> cases l <;>
        simp [applyTickTransition, h, hsig2]
    · cases hth2 : c.threshold <;> cases l <;>
        simp [applyTickTransition, h, hth2]
    · cases hth2 : c.threshold <;> cases hsig2 : c.lastSignalAtMs <;>
        simp [applyTickTransition, h, hth2, hsig2]

/-- Example FSM sitting in BUYPOSITION with threshold 100. -/
def buyFsmExample : InstrumentFsm :=
  { state := .BUYPOSITION
    threshold := some 100
    savedBUYThreshold := some 100
    lastBUYThreshold := some 100
    lastSELLThreshold := none
    lastSignalAtMs := some 5
    lastCheckedAtMs := some 5
    lastBlockedAtMs := none }

/-- C1 witness: the theorem applied at concrete inputs. -/
theorem c1_witness :
    applyTickTransition buyFsmExample (some 101) 9 =
      { next := buyFsmExample, intermediate := none } :=
  ((c1_buy_and_signal_tick_rules buyFsmExample 100 101 5 9 rfl rfl).1 rfl).1
    (by norm_num)

end TradingFsm

namespace TradingFsm

/-- C3: in NOPOSITION_BLOCKED (with the tick preconditions non-null and
lastBlockedAtMs set) a tick produces any change at all exactly when the
tick minute is strictly greater than the minute of lastBlockedAtMs and the
tick second is 0, and in that case the FSM first re-enters
NOPOSITION_SIGNAL (the emitted intermediate transition) and then applies
the NOPOSITION_SIGNAL rule in the same step. -/
theorem c3_blocked_reevaluation_gate
    (current : InstrumentFsm) (tv lv : ℚ) (sig blocked receivedAt : ℕ)
    (hstate : current.state = .NOPOSITION_BLOCKED)
    (hth : current.threshold = some tv)
    (hsig : current.lastSignalAtMs = some sig)
    (hblk : current.lastBlockedAtMs = some blocked) :
    (applyTickTransition current (some lv) receivedAt ≠
        { next := current, intermediate := none } ↔
      (minuteOf blocked < minuteOf receivedAt ∧ secondOf receivedAt = 0))
    ∧ ((minuteOf blocked < minuteOf receivedAt ∧ secondOf receivedAt = 0) →
        (applyTickTransition current (some lv) receivedAt).intermediate =
          some { current with
            state := .NOPOSITION_SIGNAL
            lastSignalAtMs := some receivedAt
            lastCheckedAtMs := none
            lastBlockedAtMs := none }
        ∧ (applyTickTransition current (some lv) receivedAt).next =
            (if tv < lv then
              { current with
                state := .BUYPOSITION
                lastSignalAtMs := some receivedAt
                lastCheckedAtMs := some receivedAt
                lastBlockedAtMs := none }
            else
              { current with
                state := .NOPOSITION_BLOCKED
                lastSignalAtMs := some receivedAt
                lastCheckedAtMs := some receivedAt
                lastBlockedAtMs := some receivedAt })) := by
  have hcond := isFirstSecondNextMinute_some_iff blocked receivedAt
  constructor
  · rcases hfs : isFirstSecondNextMinute (some blocked) receivedAt with _ | _
    · have hc : ¬(minuteOf blocked < minuteOf receivedAt ∧
          secondOf receivedAt = 0) := by
        rw [← hcond, hfs]
        simp
      simp only [applyTickTransition, hth, hsig, hstate, hblk, hfs,
        Bool.false_eq_true, if_false, ne_eq, not_true_eq_false, false_iff]
      exact hc
    · have hc : minuteOf blocked < minuteOf receivedAt ∧
          secondOf receivedAt = 0 := by
        rw [← hcond, hfs]
      simp only [applyTickTransition, hth, hsig, hstate, hblk, hfs, if_true,
        ne_eq]
      rw [iff_true_intro hc, iff_true]
      intro heq
      have hinter := congrArg TickTransitionResult.intermediate heq
      simp at hinter
  · intro hmin
    have hfs : isFirstSecondNextMinute (some blocked) receivedAt = true :=
      hcond.mpr hmin
    constructor
    · simp only [applyTickTransition, hth, hsig, hstate, hblk, hfs, if_true]
    · simp only [applyTickTransition, hth, hsig, hstate, hblk, hfs, if_true,
        gt_iff_lt]
      split_ifs <;> simp_all

/-- C3 witness: blocked at 10:00:30, tick at 10:01:00 with ltp above the
threshold re-arms and immediately enters BUYPOSITION. -/
theorem c3_witness :
    (applyTickTransition
        { buyFsmExample with
          state := .NOPOSITION_BLOCKED, lastBlockedAtMs := some 630000 }
        (some 101) 660000).intermediate =
      some { buyFsmExample with
        state := .NOPOSITION_SIGNAL
        lastSignalAtMs := some 660000
        lastCheckedAtMs := none
        lastBlockedAtMs := none } :=
  (((c3_blocked_reevaluation_gate
      { buyFsmExample with
        state := .NOPOSITION_BLOCKED, lastBlockedAtMs := some 630000 }
      100 101 5 630000 660000 rfl rfl rfl rfl).2) (by decide)).1

/-- Example FSM sitting in SELLPOSITION with threshold 100 (as restored
from a persisted snapshot of the short runner). -/
def sellFsmExample : InstrumentFsm :=
  { state := .SELLPOSITION
    threshold := some 100
    savedBUYThreshold := none
    lastBUYThreshold := none
    lastSELLThreshold := some 100
    lastSignalAtMs := some 5
    lastCheckedAtMs := none
    lastBlockedAtMs := none }

/-- C2 counterexample: with the FSM of ZerodhaTickRunnerService and
TickComponent in SELLPOSITION, threshold 100, lastSignalAtMs set and tick
price 101 > 100, the claim requires NOPOSITION_BLOCKED but the code leaves
the state SELLPOSITION: applyTickTransition has no SELLPOSITION branch and
falls through to the unconditional no-op. -/
theorem c2_counterexample :
    (100 : ℚ) < 101
    ∧ sellFsmExample.state = .SELLPOSITION
    ∧ sellFsmExample.threshold = some 100
    ∧ sellFsmExample.lastSignalAtMs = some 5
    ∧ (applyTickTransition sellFsmExample (some 101) 6).next.state ≠
        .NOPOSITION_BLOCKED := by
  refine ⟨by norm_num, rfl, rfl, rfl, by decide⟩

/-- C2 amended: in the broker tick runner and the tick component every tick
in state SELLPOSITION is a no-op, whatever the price; the claimed
SELLPOSITION rule (stay while ltp ≤ threshold, NOPOSITION_BLOCKED when
ltp > threshold) holds for the short-runner transition modelled from the
in-repo FSM document, the source of BtcShortFsmService being absent. -/
theorem c2_sellposition_rules_amended :
    (∀ (current : InstrumentFsm) (ltp : Option ℚ) (receivedAt : ℕ),
        current.state = .SELLPOSITION →
        applyTickTransition current ltp receivedAt =
          { next := current, intermediate := none })
    ∧ (∀ (current : InstrumentFsm) (tv lv : ℚ) (sig receivedAt : ℕ),
        current.state = .SELLPOSITION →
        current.threshold = some tv →
        current.lastSignalAtMs = some sig →
        ((lv ≤ tv →
            applyTickTransitionShortSpec current (some lv) receivedAt =
              { next := current, intermediate := none })
          ∧ (tv < lv →
            applyTickTransitionShortSpec current (some lv) receivedAt =
              { next := { current with
                  state := .NOPOSITION_BLOCKED
                  lastCheckedAtMs := some receivedAt
                  lastBlockedAtMs := some receivedAt }
                intermediate := none }))) := by
  constructor
  · intro current ltp receivedAt hstate
    cases hth : current.threshold <;> cases hsig : current.lastSignalAtMs <;>
      cases ltp <;> simp [applyTickTransition, hth, hsig, hstate]
  · intro current tv lv sig receivedAt hstate hth hsig
    constructor
    · intro hle
      simp only [applyTickTransitionShortSpec, hth, hsig, hstate, if_pos hle]
    · intro hlt
      simp only [applyTickTransitionShortSpec, hth, hsig, hstate,
        if_neg (not_le.mpr hlt)]

/-- C2 witness: the amended theorem applied at concrete inputs, on both the
broker no-op side and the modelled short-runner side. -/
theorem c2_witness :
    applyTickTransition sellFsmExample (some 99) 7 =
      { next := sellFsmExample, intermediate := none }
    ∧ applyTickTransitionShortSpec sellFsmExample (some 101) 7 =
      { next := { sellFsmExample with
          state := .NOPOSITION_BLOCKED
          lastCheckedAtMs := some 7
          lastBlockedAtMs := some 7 }
        intermediate := none } :=
  ⟨c2_sellposition_rules_amended.1 sellFsmExample (some 99) 7 rfl,
   (c2_sellposition_rules_amended.2 sellFsmExample 100 101 5 7 rfl rfl rfl).2
     (by norm_num)⟩

end TradingFsm

namespace TradingFsm

/-- Helper: a tick transition either returns the FSM unchanged or keeps
the (necessarily non-null) threshold and leaves lastSignalAtMs non-null. -/
lemma applyTickTransition_next_fields (current : InstrumentFsm)
    (ltp : Option ℚ) (t : ℕ) :
    (applyTickTransition current ltp t).next = current
    ∨ ((applyTickTransition current ltp t).next.threshold = current.threshold
       ∧ (applyTickTransition current ltp t).next.lastSignalAtMs ≠ none
       ∧ current.threshold ≠ none) := by
  rcases hth : current.threshold with _ | tv
  · cases hsig : current.lastSignalAtMs <;> cases ltp <;>
      simp [applyTickTransition, hth, hsig]
  rcases hsig : current.lastSignalAtMs with _ | sig
  · cases ltp <;> simp [applyTickTransition, hth, hsig]
  rcases ltp with _ | lv
  · simp [applyTickTransition, hth, hsig]
  cases hstate : current.state <;>
    simp only [applyTickTransition, hth, hsig, hstate] <;>
    first
      | (split_ifs <;> simp_all)
      | simp

/-- C4 counterexample: a BUY signal with no numeric stoppx, applied to the
default FSM, enters NOPOSITION_SIGNAL with threshold = null, violating the
claimed invariant. -/
theorem c4_counterexample :
    (applySignalTransition defaultFsm .BUY none none 42).state =
      .NOPOSITION_SIGNAL
    ∧ (applySignalTransition defaultFsm .BUY none none 42).threshold =
        none := by
  exact ⟨rfl, rfl⟩

/-- C4 amended: every signal transition (broker and long variants) records
lastSignalAtMs = the event time, hence non-null; a signal transition from a
non-position state yields a non-null threshold whenever the price source of
the signal is available (BUY with a numeric stoppx, SELL with a known last
ltp) — a BUY without a numeric stoppx or a SELL with no known ltp enters
NOPOSITION_SIGNAL with threshold null; and every tick transition that
changes the FSM leaves threshold and lastSignalAtMs non-null. -/
theorem c4_transition_invariant_amended :
    (∀ (current : InstrumentFsm) (signal : Signal) (stoppx latestLtp : Option ℚ)
        (receivedAt : ℕ),
        (applySignalTransition current signal stoppx latestLtp
            receivedAt).lastSignalAtMs = some receivedAt)
    ∧ (∀ (current : InstrumentFsm) (signal : Signal)
        (stoppx latestLtp : Option ℚ) (receivedAt : ℕ),
        (applySignalTransitionLong current signal stoppx latestLtp
            receivedAt).lastSignalAtMs = some receivedAt)
    ∧ (∀ (current : InstrumentFsm) (stoppx latestLtp : Option ℚ)
        (receivedAt : ℕ) (sv : ℚ),
        isPositionState current.state = false →
        (stoppx = some sv →
          (applySignalTransition current .BUY stoppx latestLtp
              receivedAt).threshold = some sv)
        ∧ (latestLtp = some sv →
          (applySignalTransition current .SELL stoppx latestLtp
              receivedAt).threshold = some sv))
    ∧ (∀ (current : InstrumentFsm) (ltp : Option ℚ) (receivedAt : ℕ),
        (applyTickTransition current ltp receivedAt).next ≠ current →
        (applyTickTransition current ltp receivedAt).next.threshold ≠ none
        ∧ (applyTickTransition current ltp receivedAt).next.lastSignalAtMs ≠
            none) := by
  refine ⟨?_, ?_, ?_, ?_⟩
  · intro current signal stoppx latestLtp receivedAt
    cases signal <;> cases hp : isPositionState current.state <;>
      simp [applySignalTransition, hp]
  · intro current signal stoppx latestLtp receivedAt
    cases signal <;> simp [applySignalTransitionLong]
  · intro current stoppx latestLtp receivedAt sv hp
    constructor
    · intro hs
      simp [applySignalTransition, hp, hs]
    · intro hl
      simp [applySignalTransition, hp, hl]
  · intro current ltp receivedAt hne
    rcases applyTickTransition_next_fields current ltp receivedAt with h | h
    · exact absurd h hne
    · refine ⟨?_, h.2.1⟩
      rw [h.1]
      exact h.2.2

/-- C4 witness: the amended theorem applied at concrete inputs. -/
theorem c4_witness :
    (applySignalTransition defaultFsm .BUY (some 100) none 42).lastSignalAtMs =
      some 42
    ∧ (applySignalTransition defaultFsm .BUY (some 100) none 42).threshold =
        some 100
    ∧ ((applyTickTransition buyFsmExample (some 99) 9).next.threshold ≠ none
        ∧ (applyTickTransition buyFsmExample (some 99) 9).next.lastSignalAtMs ≠
            none) :=
  ⟨c4_transition_invariant_amended.1 defaultFsm .BUY (some 100) none 42,
   (c4_transition_invariant_amended.2.2.1 defaultFsm (some 100) none 42 100
     rfl).1 rfl,
   c4_transition_invariant_amended.2.2.2 buyFsmExample (some 99) 9 (by decide)⟩

end TradingFsm

namespace TradingFsm

/-- Trade side string union. -/
inductive Side where
  | BUY
  | SELL
deriving DecidableEq, Repr

/-- `FsmSymbolSnapshot` of TickFsmStateService: the per-symbol snapshot
shared between the runners and the trade engine. -/
structure Snap where
  state : FsmState
  ltp : Option ℚ
  threshold : Option ℚ
  lastBUYThreshold : Option ℚ
  lastSELLThreshold : Option ℚ
  lastBlockedAtMs : Option ℕ
deriving DecidableEq, Repr

/-- `OpenTrade` of WebhookStateService. -/
structure OpenTrade where
  id : String
  symbol : String
  side : Side
  entryPrice : ℚ
  quantity : ℤ
  lot : ℚ
  timeIst : String
deriving DecidableEq, Repr

/-- `TradeRow` of WebhookStateService. -/
structure TradeRow where
  id : String
  timeIst : String
  symbol : String
  entryPrice : Option ℚ
  currentPrice : Option ℚ
  unrealizedPnl : Option ℚ
  cumulativePnl : Option ℚ
  quantity : Option ℤ
deriving DecidableEq, Repr

/-- `calculatePnl` of WebhookStateService (identical in the btc-combined
component): the short delta is applied only when the symbol is exactly
BTCUSDT_SHORT. -/
def calculatePnl (symbol : String) (ltp entryPrice : ℚ) (quantity : ℤ)
    (lot : ℚ) : ℚ :=
  let isShort := symbol = "BTCUSDT_SHORT"
  let delta := if isShort then entryPrice - ltp else ltp - entryPrice
  delta * quantity * lot

/-- `updateTradeRow`: patch the row with the given id (an empty list stays
empty, as in the source early return). -/
def updateTradeRow (rows : List TradeRow) (id : String)
    (patch : TradeRow → TradeRow) : List TradeRow :=
  rows.map fun row => if row.id = id then patch row else row

/-- `closeLiveTradeOnly` of WebhookStateService, with the mutable maps made
explicit: returns the updated live cumulative for the symbol and the
updated live rows list.  Adds the unrealized P&L to the live cumulative,
subtracts the fixed 50-unit exit cost, patches the open row and prepends an
exit row carrying the post-cost cumulative. -/
def closeLiveTradeOnly (symbol : String) (openTrade : OpenTrade)
    (ltp unrealized : ℚ) (liveRows : List TradeRow) (liveCumulative : ℚ)
    (nowIst : String) : ℚ × List TradeRow :=
  let nextCumulative := liveCumulative + unrealized - 50
  let updated := updateTradeRow liveRows openTrade.id fun row =>
    { row with
      currentPrice := some ltp
      unrealizedPnl := some 0
      cumulativePnl := some nextCumulative }
  let exitRow : TradeRow :=
    { id := openTrade.id ++ "-exit"
      timeIst := nowIst
      symbol := symbol
      entryPrice := some openTrade.entryPrice
      currentPrice := some ltp
      unrealizedPnl := some unrealized
      cumulativePnl := some nextCumulative
      quantity := some openTrade.quantity }
  (nextCumulative, exitRow :: updated)

/-- `shouldEnterLiveTrade` of WebhookStateService: entry allowed when the
block has expired and the combined paper P&L is zero or positive. -/
def shouldEnterLiveTrade (blockedUntilMs nowMs : ℕ)
    (cumulativePnl unrealizedPnl : ℚ) : Bool :=
  if nowMs < blockedUntilMs then
    false
  else
    let combined := unrealizedPnl + cumulativePnl
    combined = 0 ∨ combined > 0

/-- `createLiveOpenTrade` of WebhookStateService. -/
def createLiveOpenTrade (symbol : String) (paperTrade : OpenTrade) (ltp : ℚ)
    (nowMs : ℕ) (nowIst : String) : OpenTrade :=
  { id := "live-" ++ symbol ++ "-" ++ toString nowMs
    symbol := symbol
    side := paperTrade.side
    entryPrice := ltp
    quantity := paperTrade.quantity
    lot := paperTrade.lot
    timeIst := nowIst }

/-- The per-symbol projection of the seven symbol-keyed maps of
`TradeState` (minus the last-snapshot map, which the engine state keeps
separately): cumulative values carry the `?? 0` read-through default. -/
structure SymbolTradeState where
  paperOpen : Option OpenTrade
  liveOpen : Option OpenTrade
  paperRows : List TradeRow
  liveRows : List TradeRow
  cumulative : ℚ
  liveCumulative : ℚ
deriving DecidableEq, Repr

/-- Empty per-symbol trade state (no map entries). -/
def initialSymbolTradeState : SymbolTradeState :=
  { paperOpen := none
    liveOpen := none
    paperRows := []
    liveRows := []
    cumulative := 0
    liveCumulative := 0 }

/-- The per-symbol projection of the auxiliary service maps of
WebhookStateService that the trade reducer reads and writes. -/
structure AuxState where
  blockedUntilMs : ℕ
  lastLiveEntryMinute : Option ℕ
  pendingBuySellSell : Bool
  sellCountAfterBuy : ℕ
  lastLiveTradeId : Option String
deriving DecidableEq, Repr

/-- Auxiliary state with no map entries. -/
def initialAuxState : AuxState :=
  { blockedUntilMs := 0
    lastLiveEntryMinute := none
    pendingBuySellSell := false
    sellCountAfterBuy := 0
    lastLiveTradeId := none }

/-- Effects that leave the trade reducer: broker order posts
(`sendLiveOrder`), the buy-sell-sell FSM re-arm write-back
(`fsmStateService.update`) and the cumulative reset pushed on the shared
subject (`resetCumulativePnl`). -/
inductive EngineEvent where
  | orderOpen (symbol : String)
  | orderClose (symbol : String)
  | fsmRearm (symbol : String) (threshold : ℚ)
  | cumulativeReset (symbol : String)
deriving DecidableEq, Repr

/-- `prev?.state ?? NOSIGNAL` of the edge detection. -/
def prevStateOf (prev : Option Snap) : FsmState :=
  match prev with
  | some p => p.state
  | none => .NOSIGNAL

/-- The buy-sell-sell re-arm block at the top of the loop body of
`reduceTradeState`: when the symbol is pending, out of position, and the
price has dropped below the last BUY threshold while the FSM threshold
differs from it, the reducer writes the re-armed threshold back to the
shared FSM snapshot and resets the cumulative P&L on the shared subject
(both modelled as emitted events; neither touches the local maps of the
pass), clearing the pending flag and the sell counter. -/
def rearmStep (symbol : String) (current : Snap) (isInPosition : Bool)
    (lv : ℚ) (aux : AuxState) : AuxState × List EngineEvent :=
  if aux.pendingBuySellSell then
    match current.lastBUYThreshold with
    | some buyTh =>
      if !isInPosition && decide (lv < buyTh)
          && decide (current.threshold ≠ some buyTh) then
        ({ aux with pendingBuySellSell := false, sellCountAfterBuy := 0 },
         [.fsmRearm symbol buyTh, .cumulativeReset symbol])
      else
        (aux, [])
    | none => (aux, [])
  else
    (aux, [])

/-- The paper trade opened by the entering branch of the loop body:
`qty = ceil(capital / (lot * ltp))`, side SELL only when the snapshot state
is SELLPOSITION. -/
def enteredPaperTrade (symbol : String) (current : Snap) (lv : ℚ)
    (lot? : Option ℚ) (capital : ℚ) (nowMs : ℕ) (nowIst : String) :
    OpenTrade :=
  let lot := lot?.getD 1
  { id := symbol ++ "-" ++ toString nowMs
    symbol := symbol
    side := if current.state = .SELLPOSITION then .SELL else .BUY
    entryPrice := lv
    quantity := ⌈capital / (lot * lv)⌉
    lot := lot
    timeIst := nowIst }

/-- The `isEntering && !openBySymbol.has(symbol)` paper-open step of the
loop body: open the paper trade at the tick price and prepend its entry
row. -/
def enterPaperStep (symbol : String) (current : Snap) (s : SymbolTradeState)
    (isEntering : Bool) (lv : ℚ) (lot? : Option ℚ) (capital : ℚ)
    (nowMs : ℕ) (nowIst : String) : SymbolTradeState :=
  if isEntering && s.paperOpen.isNone then
    let trade := enteredPaperTrade symbol current lv lot? capital nowMs nowIst
    let row : TradeRow :=
      { id := trade.id, timeIst := nowIst, symbol := symbol,
        entryPrice := some lv, currentPrice := some lv,
        unrealizedPnl := some 0, cumulativePnl := some s.cumulative,
        quantity := some trade.quantity }
    { s with paperOpen := some trade, paperRows := row :: s.paperRows }
  else s

/-- The remainder of the loop body after the paper-open step: paper row
refresh, live force-close, the live entry gate, and the paper/live exit
handling. -/
def positionStep (symbol : String) (current : Snap) (s1 : SymbolTradeState)
    (aux1 : AuxState) (evs0 : List EngineEvent) (isEntering isExiting : Bool)
    (lv : ℚ) (nowMs : ℕ) (nowIst : String) :
    SymbolTradeState × AuxState × List EngineEvent :=
  match s1.paperOpen with
  | none => (s1, aux1, evs0)
  | some openTrade =>
    if isPositionState current.state then
      let paperUnrealized :=
        calculatePnl symbol lv openTrade.entryPrice openTrade.quantity
          openTrade.lot
      let cumulative := s1.cumulative
      let paperRows2 := updateTradeRow s1.paperRows openTrade.id fun row =>
        { row with
          currentPrice := some lv
          unrealizedPnl := some paperUnrealized }
      match s1.liveOpen with
      | some liveTrade =>
        let liveUnrealized :=
          calculatePnl symbol lv liveTrade.entryPrice liveTrade.quantity
            liveTrade.lot
        if paperUnrealized + cumulative < 0 then
          let closed := closeLiveTradeOnly symbol liveTrade lv
            liveUnrealized s1.liveRows s1.liveCumulative nowIst
          ({ s1 with
              paperRows := paperRows2
              liveRows := closed.2
              liveCumulative := closed.1
              liveOpen := none },
           { aux1 with
              lastLiveTradeId := none
              blockedUntilMs := (minuteOf nowMs + 1) * 60000 },
           evs0 ++ [.orderClose symbol])
        else
          let liveRows2 := updateTradeRow s1.liveRows liveTrade.id
            fun row =>
              { row with
                currentPrice := some lv
                unrealizedPnl := some liveUnrealized }
          ({ s1 with paperRows := paperRows2, liveRows := liveRows2 },
           aux1, evs0)
      | none =>
        if shouldEnterLiveTrade aux1.blockedUntilMs nowMs cumulative
            paperUnrealized then
          if (isEntering || decide (secondOf nowMs = 0))
              && decide (aux1.lastLiveEntryMinute ≠ some (minuteOf nowMs))
            then
            let liveTrade :=
              createLiveOpenTrade symbol openTrade lv nowMs nowIst
            let liveRow : TradeRow :=
              { id := liveTrade.id, timeIst := liveTrade.timeIst,
                symbol := symbol, entryPrice := some liveTrade.entryPrice,
                currentPrice := some lv, unrealizedPnl := some 0,
                cumulativePnl := some s1.liveCumulative,
                quantity := some liveTrade.quantity }
            ({ s1 with
                paperRows := paperRows2
                liveOpen := some liveTrade
                liveRows := liveRow :: s1.liveRows },
             { aux1 with
                lastLiveEntryMinute := some (minuteOf nowMs)
                lastLiveTradeId := some liveTrade.id },
             evs0 ++ [.orderOpen symbol])
          else
            ({ s1 with paperRows := paperRows2 }, aux1, evs0)
        else
          ({ s1 with paperRows := paperRows2 }, aux1, evs0)
    else if isExiting then
      let realized :=
        calculatePnl symbol lv openTrade.entryPrice openTrade.quantity
          openTrade.lot
      let cumulative := s1.cumulative + realized
      let paperRows2 := updateTradeRow s1.paperRows openTrade.id fun row =>
        { row with
          currentPrice := some lv
          unrealizedPnl := some 0
          cumulativePnl := some cumulative }
      let exitRow : TradeRow :=
        { id := openTrade.id ++ "-exit", timeIst := nowIst,
          symbol := symbol, entryPrice := some openTrade.entryPrice,
          currentPrice := some lv, unrealizedPnl := some realized,
          cumulativePnl := some cumulative,
          quantity := some openTrade.quantity }
      let s2 := { s1 with
        paperRows := exitRow :: paperRows2
        cumulative := cumulative
        paperOpen := none }
      match s1.liveOpen with
      | some liveTrade =>
        let liveUnrealized :=
          calculatePnl symbol lv liveTrade.entryPrice liveTrade.quantity
            liveTrade.lot
        let closed := closeLiveTradeOnly symbol liveTrade lv
          liveUnrealized s1.liveRows s1.liveCumulative nowIst
        ({ s2 with
            liveRows := closed.2
            liveCumulative := closed.1
            liveOpen := none },
         { aux1 with lastLiveTradeId := none },
         evs0 ++ [.orderClose symbol])
      | none => (s2, aux1, evs0)
    else
      (s1, aux1, evs0)

/-- One iteration of the `for (const [symbol, current] of snapshot)` loop of
`reduceTradeState` in WebhookStateService, for one symbol.  `prev` is the
`lastSnapshotBySymbol` entry (whose write-back the caller performs), `lot?`
the lot lookup for the symbol, `capital` the configured capital.  The JS
guard `if (!current.ltp) continue` skips null and zero prices alike.
`logMinutePnl` and the skip logging are dropped (log-only). -/
def processSymbolPass (symbol : String) (prev : Option Snap) (current : Snap)
    (s : SymbolTradeState) (aux : AuxState) (lot? : Option ℚ) (capital : ℚ)
    (nowMs : ℕ) (nowIst : String) :
    SymbolTradeState × AuxState × List EngineEvent :=
  match current.ltp with
  | none => (s, aux, [])
  | some lv =>
    if lv = 0 then (s, aux, [])
    else
      let wasInPosition := isPositionState (prevStateOf prev)
      let isInPosition := isPositionState current.state
      let isEntering := !wasInPosition && isInPosition
      let isExiting := wasInPosition && !isInPosition
      let rearmed := rearmStep symbol current isInPosition lv aux
      let s1 := enterPaperStep symbol current s isEntering lv lot? capital
        nowMs nowIst
      positionStep symbol current s1 rearmed.1 rearmed.2 isEntering isExiting
        lv nowMs nowIst

end TradingFsm

namespace TradingFsm

/-- The symbol-keyed stores of WebhookStateService relevant to the trade
reducer, viewed pointwise: `trade` bundles the seven trade maps for a
symbol, `aux` the auxiliary service maps, `lastSnap` the
`lastSnapshotBySymbol` map. -/
structure EngineState where
  trade : String → SymbolTradeState
  aux : String → AuxState
  lastSnap : String → Option Snap

/-- Engine state with no map entries. -/
def initialEngineState : EngineState :=
  { trade := fun _ => initialSymbolTradeState
    aux := fun _ => initialAuxState
    lastSnap := fun _ => none }

/-- `reduceTradeState` of WebhookStateService: fold the per-symbol loop
body over the snapshot entries, remembering each snapshot in
`lastSnapshotBySymbol` (the source performs that write before the
`if (!current.ltp) continue` guard, so it happens for skipped symbols
too). -/
def reduceTradeStep (lotOf : String → Option ℚ) (capital : ℚ) (nowMs : ℕ)
    (nowIst : String) (acc : EngineState × List EngineEvent)
    (e : String × Snap) : EngineState × List EngineEvent :=
  let st := acc.1
  let result := processSymbolPass e.1 (st.lastSnap e.1) e.2
    (st.trade e.1) (st.aux e.1) (lotOf e.1) capital nowMs nowIst
  ({ trade := fun x => if x = e.1 then result.1 else st.trade x
     aux := fun x => if x = e.1 then result.2.1 else st.aux x
     lastSnap := fun x => if x = e.1 then some e.2 else st.lastSnap x },
   acc.2 ++ result.2.2)

def reduceTradeState (es : EngineState) (entries : List (String × Snap))
    (lotOf : String → Option ℚ) (capital : ℚ) (nowMs : ℕ) (nowIst : String) :
    EngineState × List EngineEvent :=
  entries.foldl (reduceTradeStep lotOf capital nowMs nowIst) (es, [])

/-- `resetTradeStateForSymbols` of WebhookStateService: every symbol-keyed
map (trade maps, auxiliary service maps, last-snapshot map) drops the
entries of the symbols matched by the predicate. -/
def resetTradeStateForSymbols (es : EngineState)
    (shouldReset : String → Bool) : EngineState :=
  { trade := fun x =>
      if shouldReset x then initialSymbolTradeState else es.trade x
    aux := fun x => if shouldReset x then initialAuxState else es.aux x
    lastSnap := fun x => if shouldReset x then none else es.lastSnap x }

/-- JS `String.prototype.endsWith`, modelled on the character list of the
string. -/
def endsWithStr (s suffix : String) : Bool :=
  s.data.reverse.take suffix.data.length = suffix.data.reverse

/-- `isOpenTrade` of the webhook and history components, on a TradeRow:
open rows are those whose id does not end in `-exit`. -/
def isOpenTradeRow (row : TradeRow) : Bool :=
  !(endsWithStr row.id "-exit")

/-- `formatLiveUnrealized` of WebhookComponent and HistoryBtcComponent, as
the numeric value of the rendered string (`--` for a null value; ℚ has no
NaN): an open live row displays its raw unrealized P&L minus 50. -/
def formatLiveUnrealized (row : TradeRow) : Option ℚ :=
  match row.unrealizedPnl with
  | none => none
  | some base => some (if isOpenTradeRow row then base - 50 else base)

end TradingFsm

namespace TradingFsm

/-- C6: a live force-close stores `previous live cumulative + live
unrealized - 50`, the prepended live exit row carries exactly that
post-cost cumulative, and an open live row displays its raw unrealized
P&L minus 50 (exit rows display the raw value, so the 50-unit cost enters
the stored cumulative exactly once). -/
theorem c6_live_force_close_cost
    (symbol : String) (openTrade : OpenTrade) (ltp unrealized : ℚ)
    (liveRows : List TradeRow) (liveCumulative : ℚ) (nowIst : String) :
    (closeLiveTradeOnly symbol openTrade ltp unrealized liveRows
        liveCumulative nowIst).1 = liveCumulative + unrealized - 50
    ∧ (closeLiveTradeOnly symbol openTrade ltp unrealized liveRows
        liveCumulative nowIst).2.head? = some
        { id := openTrade.id ++ "-exit"
          timeIst := nowIst
          symbol := symbol
          entryPrice := some openTrade.entryPrice
          currentPrice := some ltp
          unrealizedPnl := some unrealized
          cumulativePnl := some (liveCumulative + unrealized - 50)
          quantity := some openTrade.quantity }
    ∧ (∀ (row : TradeRow) (base : ℚ), isOpenTradeRow row = true →
        row.unrealizedPnl = some base →
        formatLiveUnrealized row = some (base - 50)) := by
  refine ⟨rfl, rfl, ?_⟩
  intro row base hopen hbase
  simp [formatLiveUnrealized, hbase, hopen]

/-- Example open live trade. -/
def liveTradeExample : OpenTrade :=
  { id := "live-BTCUSDT-1", symbol := "BTCUSDT", side := .BUY,
    entryPrice := 100, quantity := 1, lot := 1, timeIst := "t" }

/-- Example open live row with raw unrealized P&L 30. -/
def liveRowExample : TradeRow :=
  { id := "live-BTCUSDT-1", timeIst := "t", symbol := "BTCUSDT",
    entryPrice := some 100, currentPrice := some 130,
    unrealizedPnl := some 30, cumulativePnl := some 0, quantity := some 1 }

/-- C6 witness: the theorem applied at concrete inputs. -/
theorem c6_witness :
    (closeLiveTradeOnly "BTCUSDT" liveTradeExample 99 10 [] 5 "t").1 =
      5 + 10 - 50
    ∧ formatLiveUnrealized liveRowExample = some (30 - 50) :=
  ⟨(c6_live_force_close_cost "BTCUSDT" liveTradeExample 99 10 [] 5 "t").1,
   (c6_live_force_close_cost "BTCUSDT" liveTradeExample 99 10 [] 5 "t").2.2
     liveRowExample 30 (by decide) rfl⟩

/-- C7 counterexample: ETHUSDT_SHORT ends with `_SHORT`, so the claim
requires the short delta `entry - ltp`, giving -10 at ltp 110, entry 100,
qty 1, lot 1 — but calculatePnl compares the whole symbol against
BTCUSDT_SHORT and returns the long P&L `+10`. -/
theorem c7_counterexample :
    endsWithStr "ETHUSDT_SHORT" "_SHORT" = true
    ∧ calculatePnl "ETHUSDT_SHORT" 110 100 1 1 = 10
    ∧ ((100 : ℚ) - 110) * 1 * 1 = -10 := by
  refine ⟨by decide, ?_, by norm_num⟩
  simp only [calculatePnl]
  rw [if_neg (by simp : ¬("ETHUSDT_SHORT" : String) = "BTCUSDT_SHORT")]
  norm_num

/-- C7 amended: the trade-engine P&L is `delta * qty * lot` where delta is
`entry - ltp` exactly when the symbol is the literal BTCUSDT_SHORT, and
`ltp - entry` for every other symbol (including other symbols ending in
`_SHORT`). -/
theorem c7_pnl_formula_amended (symbol : String) (ltp entryPrice : ℚ)
    (quantity : ℤ) (lot : ℚ) :
    (symbol = "BTCUSDT_SHORT" →
      calculatePnl symbol ltp entryPrice quantity lot =
        (entryPrice - ltp) * quantity * lot)
    ∧ (symbol ≠ "BTCUSDT_SHORT" →
      calculatePnl symbol ltp entryPrice quantity lot =
        (ltp - entryPrice) * quantity * lot) := by
  constructor <;> intro h <;> simp [calculatePnl, h]

/-- C7 witness: the amended theorem applied at concrete inputs. -/
theorem c7_witness :
    calculatePnl "BTCUSDT_SHORT" 99 100 2 3 = ((100 : ℚ) - 99) * 2 * 3
    ∧ calculatePnl "BTCUSDT" 101 100 2 3 = ((101 : ℚ) - 100) * 2 * 3 :=
  ⟨(c7_pnl_formula_amended "BTCUSDT_SHORT" 99 100 2 3).1 rfl,
   (c7_pnl_formula_amended "BTCUSDT" 101 100 2 3).2 (by simp)⟩

end TradingFsm

namespace TradingFsm

/-- Helper: the live entry permission test, as a proposition. -/
lemma shouldEnterLiveTrade_eq_true_iff (b n : ℕ) (c u : ℚ) :
    shouldEnterLiveTrade b n c u = true ↔ (b ≤ n ∧ 0 ≤ u + c) := by
  unfold shouldEnterLiveTrade
  split_ifs with h
  · simp only [Bool.false_eq_true, false_iff, not_and]
    intro hb
    omega
  · rw [decide_eq_true_eq]
    constructor
    · rintro (h0 | hp)
      · exact ⟨Nat.le_of_not_lt h, le_of_eq h0.symm⟩
      · exact ⟨Nat.le_of_not_lt h, le_of_lt hp⟩
    · rintro ⟨_, hge⟩
      rcases eq_or_lt_of_le hge with he | hl
      · exact Or.inl he.symm
      · exact Or.inr hl

/-- Helper: the live entry gate of `positionStep`, for a pass with a paper
trade open, the FSM in a position state and no live trade open. -/
lemma positionStep_live_entry_gate
    (symbol : String) (current : Snap) (s1 : SymbolTradeState)
    (aux1 : AuxState) (evs0 : List EngineEvent) (isEntering isExiting : Bool)
    (lv : ℚ) (nowMs : ℕ) (nowIst : String) (pt : OpenTrade)
    (hpos : isPositionState current.state = true)
    (hpaper : s1.paperOpen = some pt)
    (hlive : s1.liveOpen = none) :
    ((positionStep symbol current s1 aux1 evs0 isEntering isExiting lv nowMs
          nowIst).1.liveOpen ≠ none ↔
      (aux1.blockedUntilMs ≤ nowMs
        ∧ 0 ≤ calculatePnl symbol lv pt.entryPrice pt.quantity pt.lot +
            s1.cumulative
        ∧ (isEntering = true ∨ secondOf nowMs = 0)
        ∧ aux1.lastLiveEntryMinute ≠ some (minuteOf nowMs)))
    ∧ ((aux1.blockedUntilMs ≤ nowMs
        ∧ 0 ≤ calculatePnl symbol lv pt.entryPrice pt.quantity pt.lot +
            s1.cumulative
        ∧ (isEntering = true ∨ secondOf nowMs = 0)
        ∧ aux1.lastLiveEntryMinute ≠ some (minuteOf nowMs)) →
      (positionStep symbol current s1 aux1 evs0 isEntering isExiting lv nowMs
          nowIst).1.liveOpen =
        some (createLiveOpenTrade symbol pt lv nowMs nowIst)
      ∧ (positionStep symbol current s1 aux1 evs0 isEntering isExiting lv
          nowMs nowIst).2.1.lastLiveEntryMinute = some (minuteOf nowMs)
      ∧ EngineEvent.orderOpen symbol ∈
          (positionStep symbol current s1 aux1 evs0 isEntering isExiting lv
            nowMs nowIst).2.2) := by
  have hAiff := shouldEnterLiveTrade_eq_true_iff aux1.blockedUntilMs nowMs
    s1.cumulative (calculatePnl symbol lv pt.entryPrice pt.quantity pt.lot)
  have hBiff : ((isEntering || decide (secondOf nowMs = 0))
      && decide (aux1.lastLiveEntryMinute ≠ some (minuteOf nowMs))) = true ↔
      ((isEntering = true ∨ secondOf nowMs = 0)
        ∧ aux1.lastLiveEntryMinute ≠ some (minuteOf nowMs)) := by
    simp [Bool.and_eq_true, Bool.or_eq_true, decide_eq_true_eq]
  rcases hAv : shouldEnterLiveTrade aux1.blockedUntilMs nowMs s1.cumulative
      (calculatePnl symbol lv pt.entryPrice pt.quantity pt.lot) with _ | _
  · rw [hAv] at hAiff
    have hng : ¬(aux1.blockedUntilMs ≤ nowMs
        ∧ 0 ≤ calculatePnl symbol lv pt.entryPrice pt.quantity pt.lot +
            s1.cumulative
        ∧ (isEntering = true ∨ secondOf nowMs = 0)
        ∧ aux1.lastLiveEntryMinute ≠ some (minuteOf nowMs)) := by
      intro hg
      exact absurd (hAiff.mpr ⟨hg.1, hg.2.1⟩) (by simp)
    constructor
    · simp only [positionStep, hpaper, hpos, if_true, hlive, hAv,
        Bool.false_eq_true, if_false, hlive, ne_eq, not_true_eq_false,
        false_iff]
      exact hng
    · intro hg
      exact absurd hg hng
  · rw [hAv] at hAiff
    rcases hBv : ((isEntering || decide (secondOf nowMs = 0))
        && decide (aux1.lastLiveEntryMinute ≠ some (minuteOf nowMs)))
        with _ | _
    · rw [hBv] at hBiff
      have hng : ¬(aux1.blockedUntilMs ≤ nowMs
          ∧ 0 ≤ calculatePnl symbol lv pt.entryPrice pt.quantity pt.lot +
              s1.cumulative
          ∧ (isEntering = true ∨ secondOf nowMs = 0)
          ∧ aux1.lastLiveEntryMinute ≠ some (minuteOf nowMs)) := by
        intro hg
        exact absurd (hBiff.mpr ⟨hg.2.2.1, hg.2.2.2⟩) (by simp)
      constructor
      · simp only [positionStep, hpaper, hpos, if_true, hlive, hAv, hBv,
          Bool.false_eq_true, if_false, ne_eq, not_true_eq_false, false_iff]
        exact hng
      · intro hg
        exact absurd hg hng
    · rw [hBv] at hBiff
      have hg : aux1.blockedUntilMs ≤ nowMs
          ∧ 0 ≤ calculatePnl symbol lv pt.entryPrice pt.quantity pt.lot +
              s1.cumulative
          ∧ (isEntering = true ∨ secondOf nowMs = 0)
          ∧ aux1.lastLiveEntryMinute ≠ some (minuteOf nowMs) := by
        have hA := hAiff.mp rfl
        have hB := hBiff.mp rfl
        exact ⟨hA.1, hA.2, hB.1, hB.2⟩
      have hcnd1 : isEntering = true ∨ secondOf nowMs = 0 := hg.2.2.1
      have hcnd2 : ¬aux1.lastLiveEntryMinute = some (minuteOf nowMs) :=
        hg.2.2.2
      refine ⟨?_, fun _ => ?_⟩
      · simp only [iff_true_intro hg, iff_true]
        simp [positionStep, hpaper, hpos, hlive, hAv, hBv, hcnd1, hcnd2]
      · refine ⟨?_, ?_, ?_⟩ <;>
          simp [positionStep, hpaper, hpos, hlive, hAv, hBv, hcnd1, hcnd2]

end TradingFsm

namespace TradingFsm

/-- Helper: the re-arm block never touches the live entry gate fields. -/
lemma rearmStep_gate_fields (symbol : String) (current : Snap) (b : Bool)
    (lv : ℚ) (aux : AuxState) :
    (rearmStep symbol current b lv aux).1.blockedUntilMs = aux.blockedUntilMs
    ∧ (rearmStep symbol current b lv aux).1.lastLiveEntryMinute =
        aux.lastLiveEntryMinute := by
  rcases hp : aux.pendingBuySellSell with _ | _
  · simp [rearmStep, hp]
  · rcases hb : current.lastBUYThreshold with _ | buyTh
    · simp [rearmStep, hp, hb]
    · simp only [rearmStep, hp, hb, if_true]
      split_ifs <;> simp

/-- Helper: the paper-open step is the identity when a paper trade is
already open. -/
lemma enterPaperStep_paperSome (symbol : String) (current : Snap)
    (s : SymbolTradeState) (isEntering : Bool) (lv : ℚ) (lot? : Option ℚ)
    (capital : ℚ) (nowMs : ℕ) (nowIst : String) (pt : OpenTrade)
    (hpaper : s.paperOpen = some pt) :
    enterPaperStep symbol current s isEntering lv lot? capital nowMs nowIst
      = s := by
  simp [enterPaperStep, hpaper]

/-- C5 amended: for a pass over a symbol with the FSM snapshot in a
position state, a non-null and non-zero ltp, and no live trade open, a
live trade is opened (at the tick price, with the paper trade quantity,
lot and side, posting an OPEN order and recording the minute) exactly when
the block has expired, paper unrealized plus paper cumulative is ≥ 0, the
symbol is entering the position in this pass or the wall-clock second is
0, and no live trade was already opened this minute.  Part one covers a
paper trade open before the pass; part two a paper trade opened by the
pass itself (entering, so the minute-boundary disjunct is automatic). -/
theorem c5_live_entry_gate_amended :
    (∀ (symbol : String) (prev : Option Snap) (current : Snap)
        (s : SymbolTradeState) (aux : AuxState) (lot? : Option ℚ)
        (capital : ℚ) (nowMs : ℕ) (nowIst : String) (lv : ℚ)
        (pt : OpenTrade),
      current.ltp = some lv → lv ≠ 0 →
      isPositionState current.state = true →
      s.paperOpen = some pt → s.liveOpen = none →
      (((processSymbolPass symbol prev current s aux lot? capital nowMs
            nowIst).1.liveOpen ≠ none) ↔
        (aux.blockedUntilMs ≤ nowMs
          ∧ 0 ≤ calculatePnl symbol lv pt.entryPrice pt.quantity pt.lot +
              s.cumulative
          ∧ (isPositionState (prevStateOf prev) = false
              ∨ secondOf nowMs = 0)
          ∧ aux.lastLiveEntryMinute ≠ some (minuteOf nowMs)))
      ∧ ((aux.blockedUntilMs ≤ nowMs
          ∧ 0 ≤ calculatePnl symbol lv pt.entryPrice pt.quantity pt.lot +
              s.cumulative
          ∧ (isPositionState (prevStateOf prev) = false
              ∨ secondOf nowMs = 0)
          ∧ aux.lastLiveEntryMinute ≠ some (minuteOf nowMs)) →
        (processSymbolPass symbol prev current s aux lot? capital nowMs
            nowIst).1.liveOpen =
          some (createLiveOpenTrade symbol pt lv nowMs nowIst)
        ∧ (processSymbolPass symbol prev current s aux lot? capital nowMs
            nowIst).2.1.lastLiveEntryMinute = some (minuteOf nowMs)
        ∧ EngineEvent.orderOpen symbol ∈
            (processSymbolPass symbol prev current s aux lot? capital nowMs
              nowIst).2.2))
    ∧ (∀ (symbol : String) (prev : Option Snap) (current : Snap)
        (s : SymbolTradeState) (aux : AuxState) (lot? : Option ℚ)
        (capital : ℚ) (nowMs : ℕ) (nowIst : String) (lv : ℚ),
      current.ltp = some lv → lv ≠ 0 →
      isPositionState current.state = true →
      s.paperOpen = none →
      isPositionState (prevStateOf prev) = false →
      s.liveOpen = none →
      (((processSymbolPass symbol prev current s aux lot? capital nowMs
            nowIst).1.liveOpen ≠ none) ↔
        (aux.blockedUntilMs ≤ nowMs
          ∧ 0 ≤ calculatePnl symbol lv
              (enteredPaperTrade symbol current lv lot? capital nowMs
                nowIst).entryPrice
              (enteredPaperTrade symbol current lv lot? capital nowMs
                nowIst).quantity
              (enteredPaperTrade symbol current lv lot? capital nowMs
                nowIst).lot + s.cumulative
          ∧ aux.lastLiveEntryMinute ≠ some (minuteOf nowMs)))
      ∧ ((aux.blockedUntilMs ≤ nowMs
          ∧ 0 ≤ calculatePnl symbol lv
              (enteredPaperTrade symbol current lv lot? capital nowMs
                nowIst).entryPrice
              (enteredPaperTrade symbol current lv lot? capital nowMs
                nowIst).quantity
              (enteredPaperTrade symbol current lv lot? capital nowMs
                nowIst).lot + s.cumulative
          ∧ aux.lastLiveEntryMinute ≠ some (minuteOf nowMs)) →
        (processSymbolPass symbol prev current s aux lot? capital nowMs
            nowIst).1.liveOpen =
          some (createLiveOpenTrade symbol
            (enteredPaperTrade symbol current lv lot? capital nowMs nowIst)
            lv nowMs nowIst)
        ∧ (processSymbolPass symbol prev current s aux lot? capital nowMs
            nowIst).2.1.lastLiveEntryMinute = some (minuteOf nowMs)
        ∧ EngineEvent.orderOpen symbol ∈
            (processSymbolPass symbol prev current s aux lot? capital nowMs
              nowIst).2.2)) := by
  constructor
  · intro symbol prev current s aux lot? capital nowMs nowIst lv pt hltp hlv
      hpos hpaper hlive
    have hrf := rearmStep_gate_fields symbol current
      (isPositionState current.state) lv aux
    have hred : processSymbolPass symbol prev current s aux lot? capital
        nowMs nowIst =
        positionStep symbol current
          (enterPaperStep symbol current s
            (!isPositionState (prevStateOf prev)
              && isPositionState current.state) lv lot? capital nowMs nowIst)
          (rearmStep symbol current (isPositionState current.state) lv aux).1
          (rearmStep symbol current (isPositionState current.state) lv aux).2
          (!isPositionState (prevStateOf prev)
            && isPositionState current.state)
          (isPositionState (prevStateOf prev)
            && !isPositionState current.state)
          lv nowMs nowIst := by
      simp only [processSymbolPass, hltp]
      rw [if_neg hlv]
    rw [enterPaperStep_paperSome symbol current s _ lv lot? capital nowMs
      nowIst pt hpaper] at hred
    obtain ⟨h1, h2⟩ := positionStep_live_entry_gate symbol current s
      (rearmStep symbol current (isPositionState current.state) lv aux).1
      (rearmStep symbol current (isPositionState current.state) lv aux).2
      (!isPositionState (prevStateOf prev) && isPositionState current.state)
      (isPositionState (prevStateOf prev) && !isPositionState current.state)
      lv nowMs nowIst pt hpos hpaper hlive
    have hE : ((!isPositionState (prevStateOf prev)
        && isPositionState current.state) = true) ↔
        (isPositionState (prevStateOf prev) = false) := by
      simp [hpos]
    rw [hrf.1, hrf.2, hE] at h1 h2
    rw [hred]
    exact ⟨h1, h2⟩
  · intro symbol prev current s aux lot? capital nowMs nowIst lv hltp hlv
      hpos hpaper hwas hlive
    have hrf := rearmStep_gate_fields symbol current
      (isPositionState current.state) lv aux
    have hred : processSymbolPass symbol prev current s aux lot? capital
        nowMs nowIst =
        positionStep symbol current
          (enterPaperStep symbol current s
            (!isPositionState (prevStateOf prev)
              && isPositionState current.state) lv lot? capital nowMs nowIst)
          (rearmStep symbol current (isPositionState current.state) lv aux).1
          (rearmStep symbol current (isPositionState current.state) lv aux).2
          (!isPositionState (prevStateOf prev)
            && isPositionState current.state)
          (isPositionState (prevStateOf prev)
            && !isPositionState current.state)
          lv nowMs nowIst := by
      simp only [processSymbolPass, hltp]
      rw [if_neg hlv]
    have hpaperB : (enterPaperStep symbol current s
        (!isPositionState (prevStateOf prev)
          && isPositionState current.state) lv lot? capital nowMs
        nowIst).paperOpen =
        some (enteredPaperTrade symbol current lv lot? capital nowMs
          nowIst) := by
      simp [enterPaperStep, hpaper, hwas, hpos]
    have hliveB : (enterPaperStep symbol current s
        (!isPositionState (prevStateOf prev)
          && isPositionState current.state) lv lot? capital nowMs
        nowIst).liveOpen = none := by
      simp [enterPaperStep, hpaper, hwas, hpos, hlive]
    have hcum : (enterPaperStep symbol current s
        (!isPositionState (prevStateOf prev)
          && isPositionState current.state) lv lot? capital nowMs
        nowIst).cumulative = s.cumulative := by
      simp [enterPaperStep, hpaper, hwas, hpos]
    obtain ⟨h1, h2⟩ := positionStep_live_entry_gate symbol current
      (enterPaperStep symbol current s
        (!isPositionState (prevStateOf prev)
          && isPositionState current.state) lv lot? capital nowMs nowIst)
      (rearmStep symbol current (isPositionState current.state) lv aux).1
      (rearmStep symbol current (isPositionState current.state) lv aux).2
      (!isPositionState (prevStateOf prev) && isPositionState current.state)
      (isPositionState (prevStateOf prev) && !isPositionState current.state)
      lv nowMs nowIst
      (enteredPaperTrade symbol current lv lot? capital nowMs nowIst)
      hpos hpaperB hliveB
    have hEt : (!isPositionState (prevStateOf prev)
        && isPositionState current.state) = true := by
      simp [hwas, hpos]
    rw [hrf.1, hrf.2, hcum, iff_true_intro (Or.inl hEt), true_and]
      at h1 h2
    rw [hred]
    exact ⟨h1, h2⟩

end TradingFsm

namespace TradingFsm

/-- Snapshot used by the C5 counterexample: in position with ltp 0. -/
def c5Snap : Snap :=
  { state := .BUYPOSITION
    ltp := some 0
    threshold := some 90
    lastBUYThreshold := none
    lastSELLThreshold := none
    lastBlockedAtMs := none }

/-- Paper trade used by the C5 counterexample and witness. -/
def c5Paper : OpenTrade :=
  { id := "BTCUSDT-1"
    symbol := "BTCUSDT"
    side := .BUY
    entryPrice := 100
    quantity := 1
    lot := 1
    timeIst := "t" }

/-- Per-symbol trade state of the C5 counterexample: paper open,
cumulative 1000, no live trade. -/
def c5State : SymbolTradeState :=
  { paperOpen := some c5Paper
    liveOpen := none
    paperRows := []
    liveRows := []
    cumulative := 1000
    liveCumulative := 0 }

/-- C5 counterexample: at ltp = 0 (non-null) every condition of the claim
for opening a live trade holds — paper open, FSM in a position state,
entering, block expired, combined P&L ≥ 0, minute unused — and yet the
pass leaves the state untouched and opens nothing, because the engine
guard `if (!current.ltp) continue` treats the price 0 as missing. -/
theorem c5_counterexample :
    c5Snap.ltp = some 0
    ∧ isPositionState c5Snap.state = true
    ∧ c5State.paperOpen = some c5Paper
    ∧ c5State.liveOpen = none
    ∧ initialAuxState.blockedUntilMs ≤ 60000
    ∧ 0 ≤ calculatePnl "BTCUSDT" 0 c5Paper.entryPrice c5Paper.quantity
        c5Paper.lot + c5State.cumulative
    ∧ isPositionState (prevStateOf none) = false
    ∧ initialAuxState.lastLiveEntryMinute ≠ some (minuteOf 60000)
    ∧ processSymbolPass "BTCUSDT" none c5Snap c5State initialAuxState
        (some 1) 100000 60000 "t" = (c5State, initialAuxState, []) := by
  refine ⟨rfl, by decide, rfl, rfl, by norm_num [initialAuxState], ?_,
    by decide, by decide, ?_⟩
  · have hs : ("BTCUSDT" : String) ≠ "BTCUSDT_SHORT" := by simp
    norm_num [calculatePnl, c5Paper, c5State, hs]
  · simp [processSymbolPass, c5Snap]

/-- C5 witness: the amended theorem applied at concrete inputs where the
gate holds (entering pass at the first second of a minute, block expired,
combined P&L zero, minute unused). -/
theorem c5_witness :
    (processSymbolPass "BTCUSDT" none
        { c5Snap with ltp := some 100 }
        c5State initialAuxState (some 1) 100000 60000 "t").1.liveOpen =
      some (createLiveOpenTrade "BTCUSDT" c5Paper 100 60000 "t") :=
  ((c5_live_entry_gate_amended.1 "BTCUSDT" none
      { c5Snap with ltp := some 100 }
      c5State initialAuxState (some 1) 100000 60000 "t" 100 c5Paper
      rfl (by norm_num) (by decide) rfl rfl).2
    ⟨by norm_num [initialAuxState],
     by
       have hs : ("BTCUSDT" : String) ≠ "BTCUSDT_SHORT" := by simp
       norm_num [calculatePnl, c5Paper, c5State, hs],
     Or.inl (by decide),
     by decide⟩).1

end TradingFsm

namespace TradingFsm

/-- Helper: the paper-open step never touches the live trade. -/
lemma enterPaperStep_liveOpen (symbol : String) (current : Snap)
    (s : SymbolTradeState) (isEntering : Bool) (lv : ℚ) (lot? : Option ℚ)
    (capital : ℚ) (nowMs : ℕ) (nowIst : String) :
    (enterPaperStep symbol current s isEntering lv lot? capital nowMs
        nowIst).liveOpen = s.liveOpen := by
  unfold enterPaperStep
  split_ifs <;> rfl

/-- Helper: the paper-open step never clears an open paper trade. -/
lemma enterPaperStep_paperOpen_mono (symbol : String) (current : Snap)
    (s : SymbolTradeState) (isEntering : Bool) (lv : ℚ) (lot? : Option ℚ)
    (capital : ℚ) (nowMs : ℕ) (nowIst : String)
    (h : s.paperOpen ≠ none) :
    (enterPaperStep symbol current s isEntering lv lot? capital nowMs
        nowIst).paperOpen ≠ none := by
  unfold enterPaperStep
  split_ifs <;> simp [h]

/-- Helper: positionStep preserves the live-implies-paper implication. -/
lemma positionStep_preserves_live_imp_paper (symbol : String) (current : Snap)
    (s1 : SymbolTradeState) (aux1 : AuxState) (evs0 : List EngineEvent)
    (isEntering isExiting : Bool) (lv : ℚ) (nowMs : ℕ) (nowIst : String)
    (hinv : s1.liveOpen ≠ none → s1.paperOpen ≠ none) :
    (positionStep symbol current s1 aux1 evs0 isEntering isExiting lv nowMs
        nowIst).1.liveOpen ≠ none →
    (positionStep symbol current s1 aux1 evs0 isEntering isExiting lv nowMs
        nowIst).1.paperOpen ≠ none := by
  rcases hpaper : s1.paperOpen with _ | pt
  · intro hl
    simp only [positionStep, hpaper] at hl ⊢
    exact absurd (hinv hl) (by simp [hpaper])
  · rcases hlive : s1.liveOpen with _ | lt <;>
      simp only [positionStep, hpaper, hlive] <;>
      split_ifs <;> simp_all

/-- Helper: a full per-symbol pass preserves the live-implies-paper
implication. -/
lemma processSymbolPass_preserves_live_imp_paper (symbol : String)
    (prev : Option Snap) (current : Snap) (s : SymbolTradeState)
    (aux : AuxState) (lot? : Option ℚ) (capital : ℚ) (nowMs : ℕ)
    (nowIst : String)
    (hinv : s.liveOpen ≠ none → s.paperOpen ≠ none) :
    (processSymbolPass symbol prev current s aux lot? capital nowMs
        nowIst).1.liveOpen ≠ none →
    (processSymbolPass symbol prev current s aux lot? capital nowMs
        nowIst).1.paperOpen ≠ none := by
  rcases hltp : current.ltp with _ | lv
  · simp only [processSymbolPass, hltp]
    exact hinv
  by_cases hlv : lv = 0
  · simp only [processSymbolPass, hltp]
    rw [if_pos hlv]
    exact hinv
  · simp only [processSymbolPass, hltp]
    rw [if_neg hlv]
    apply positionStep_preserves_live_imp_paper
    intro hl
    rw [enterPaperStep_liveOpen] at hl
    exact enterPaperStep_paperOpen_mono symbol current s _ lv lot? capital
      nowMs nowIst (hinv hl)

/-- Helper: one fold step of the trade reducer preserves the
live-implies-paper implication at every symbol. -/
lemma reduceTradeStep_preserves_live_imp_paper
    (lotOf : String → Option ℚ) (capital : ℚ) (nowMs : ℕ) (nowIst : String)
    (acc : EngineState × List EngineEvent) (e : String × Snap)
    (hinv : ∀ sym, (acc.1.trade sym).liveOpen ≠ none →
      (acc.1.trade sym).paperOpen ≠ none) :
    ∀ sym,
      ((reduceTradeStep lotOf capital nowMs nowIst acc e).1.trade
          sym).liveOpen ≠ none →
      ((reduceTradeStep lotOf capital nowMs nowIst acc e).1.trade
          sym).paperOpen ≠ none := by
  intro sym
  unfold reduceTradeStep
  by_cases hs : sym = e.1
  · simp only [hs, if_pos rfl]
    exact processSymbolPass_preserves_live_imp_paper e.1 (acc.1.lastSnap e.1)
      e.2 (acc.1.trade e.1) (acc.1.aux e.1) (lotOf e.1) capital nowMs nowIst
      (hinv e.1)
  · simp only [if_neg hs]
    exact hinv sym

/-- C8: the live-implies-paper invariant — for every symbol, a live trade
open implies a paper trade open — is preserved by every trade-engine
reduction pass (covering paper open, row update, live open, live
force-close and paper/live exit for every processed symbol) and by the
symbol reset. -/
theorem c8_live_implies_paper_invariant :
    (∀ (es : EngineState) (entries : List (String × Snap))
        (lotOf : String → Option ℚ) (capital : ℚ) (nowMs : ℕ)
        (nowIst : String),
      (∀ sym, (es.trade sym).liveOpen ≠ none →
        (es.trade sym).paperOpen ≠ none) →
      ∀ sym,
        ((reduceTradeState es entries lotOf capital nowMs
            nowIst).1.trade sym).liveOpen ≠ none →
        ((reduceTradeState es entries lotOf capital nowMs
            nowIst).1.trade sym).paperOpen ≠ none)
    ∧ (∀ (es : EngineState) (shouldReset : String → Bool),
      (∀ sym, (es.trade sym).liveOpen ≠ none →
        (es.trade sym).paperOpen ≠ none) →
      ∀ sym,
        ((resetTradeStateForSymbols es shouldReset).trade sym).liveOpen ≠
          none →
        ((resetTradeStateForSymbols es shouldReset).trade sym).paperOpen ≠
          none) := by
  constructor
  · intro es entries lotOf capital nowMs nowIst hinv
    unfold reduceTradeState
    have key : ∀ (l : List (String × Snap))
        (acc : EngineState × List EngineEvent),
        (∀ sym, (acc.1.trade sym).liveOpen ≠ none →
          (acc.1.trade sym).paperOpen ≠ none) →
        ∀ sym,
          ((l.foldl (reduceTradeStep lotOf capital nowMs nowIst)
              acc).1.trade sym).liveOpen ≠ none →
          ((l.foldl (reduceTradeStep lotOf capital nowMs nowIst)
              acc).1.trade sym).paperOpen ≠ none := by
      intro l
      induction l with
      | nil => intro acc h; simpa using h
      | cons head tail ih =>
        intro acc h
        rw [List.foldl_cons]
        exact ih _ (reduceTradeStep_preserves_live_imp_paper lotOf capital
          nowMs nowIst acc head h)
    exact key entries (es, []) hinv
  · intro es shouldReset hinv sym
    unfold resetTradeStateForSymbols
    by_cases hr : shouldReset sym
    · simp [hr, initialSymbolTradeState]
    · simp only [hr, if_neg, Bool.false_eq_true, if_false]
      exact hinv sym

end TradingFsm

namespace TradingFsm

/-- Per-symbol trade state with both a paper and a live trade open. -/
def c8Both : SymbolTradeState :=
  { paperOpen := some c5Paper
    liveOpen := some liveTradeExample
    paperRows := []
    liveRows := []
    cumulative := 0
    liveCumulative := 0 }

/-- Engine state used by the C8 witness. -/
def c8ES : EngineState :=
  { trade := fun _ => c8Both
    aux := fun _ => initialAuxState
    lastSnap := fun _ => none }

/-- Snapshot used by the C8 witness: in position with ltp 100. -/
def c8Snap : Snap :=
  { state := .BUYPOSITION
    ltp := some 100
    threshold := some 90
    lastBUYThreshold := none
    lastSELLThreshold := none
    lastBlockedAtMs := none }

/-- C8 witness: the invariant theorem applied at a concrete reduction pass
that keeps the live trade open. -/
theorem c8_witness :
    ((reduceTradeState c8ES [("BTCUSDT", c8Snap)] (fun _ => some 1) 100000
        60000 "t").1.trade "BTCUSDT").paperOpen ≠ none :=
  c8_live_implies_paper_invariant.1 c8ES [("BTCUSDT", c8Snap)]
    (fun _ => some 1) 100000 60000 "t"
    (fun _ _ => by simp [c8ES, c8Both]) "BTCUSDT"
    (by
      have hs : ("BTCUSDT" : String) ≠ "BTCUSDT_SHORT" := by simp
      norm_num [reduceTradeState, reduceTradeStep, processSymbolPass,
        positionStep, rearmStep, enterPaperStep, prevStateOf,
        isPositionState, calculatePnl, updateTradeRow, c8ES, c8Both, c8Snap,
        c5Paper, liveTradeExample, initialAuxState, hs]
      simp)

end TradingFsm

namespace TradingFsm

/-- Association-list lookup, modelling `Map.get`. -/
def lookupS {α : Type} (m : List (String × α)) (k : String) : Option α :=
  match m with
  | [] => none
  | (kk, v) :: rest => if kk = k then some v else lookupS rest k

/-- Association-list insertion replacing the existing binding in place,
modelling `Map.set`. -/
def mapSet {α : Type} (m : List (String × α)) (k : String) (v : α) :
    List (String × α) :=
  match m with
  | [] => [(k, v)]
  | (kk, vv) :: rest =>
    if kk = k then (k, v) :: rest else (kk, vv) :: mapSet rest k v

/-- `update` of TickFsmStateService, with the mutable stores made
explicit: merge the partial snapshot into the stored mapping, remember
each non-null threshold, and report whether `subject.next` was called (the
emission to `fsmBySymbol$` subscribers).  The source emits for every
non-empty partial — only the log line is gated on a change. -/
def tickFsmUpdate (stored : List (String × Snap))
    (lastThresholds : List (String × ℚ))
    (snapshot : List (String × Snap)) :
    List (String × Snap) × List (String × ℚ) × Bool :=
  if snapshot.length = 0 then
    (stored, lastThresholds, false)
  else
    let merged := snapshot.foldl
      (fun acc e =>
        (mapSet acc.1 e.1 e.2,
         match e.2.threshold with
         | some t => mapSet acc.2 e.1 t
         | none => acc.2))
      (stored, lastThresholds)
    (merged.1, merged.2, true)

/-- C9 counterexample: updating with a partial equal to the stored entry
changes nothing, yet the service still emits a new mapping to subscribers
(`subject.next` is called unconditionally for non-empty input); the claim
says no emission should happen when no entry changed. -/
theorem c9_counterexample :
    (tickFsmUpdate [("BTCUSDT", c8Snap)] [("BTCUSDT", 90)]
        [("BTCUSDT", c8Snap)]).1 = [("BTCUSDT", c8Snap)]
    ∧ (tickFsmUpdate [("BTCUSDT", c8Snap)] [("BTCUSDT", 90)]
        [("BTCUSDT", c8Snap)]).2.1 = [("BTCUSDT", 90)]
    ∧ (tickFsmUpdate [("BTCUSDT", c8Snap)] [("BTCUSDT", 90)]
        [("BTCUSDT", c8Snap)]).2.2 = true := by
  refine ⟨?_, ?_, ?_⟩ <;> simp [tickFsmUpdate, mapSet, c8Snap]

/-- C9 amended: `update` emits a new mapping to subscribers exactly when
the partial snapshot is non-empty, whether or not any entry changed
relative to the stored mapping. -/
theorem c9_update_emission_amended (stored : List (String × Snap))
    (lastThresholds : List (String × ℚ))
    (snapshot : List (String × Snap)) :
    (tickFsmUpdate stored lastThresholds snapshot).2.2 = true ↔
      snapshot ≠ [] := by
  cases snapshot <;> simp [tickFsmUpdate]

/-- C9 witness: the amended theorem applied at a concrete input. -/
theorem c9_witness :
    (tickFsmUpdate [] [] [("BTCUSDT", c8Snap)]).2.2 = true :=
  (c9_update_emission_amended [] [] [("BTCUSDT", c8Snap)]).mpr (by simp)

end TradingFsm

namespace TradingFsm

/-- `SignalRow` of WebhookStateService (newest-first, capped at 50). -/
structure SignalRow where
  timeIst : String
  intent : Option String
  stoppx : Option ℚ
  alternateSignal : Bool
  buySellSell : Bool
  sellBuyBuy : Bool
deriving DecidableEq, Repr

/-- `SignalTracking` of WebhookStateService. -/
structure SignalTracking where
  lastSignal : Option Signal
  sellAfterBuyCount : ℕ
  buyAfterSellCount : ℕ
  alternateSignal : Bool
  buySellSell : Bool
  sellBuyBuy : Bool
deriving DecidableEq, Repr

/-- `defaultTracking()` of WebhookStateService. -/
def defaultTracking : SignalTracking :=
  { lastSignal := none
    sellAfterBuyCount := 0
    buyAfterSellCount := 0
    alternateSignal := false
    buySellSell := false
    sellBuyBuy := false }

/-- The `{ state, alternateSignal, buySellSell, sellBuyBuy }` bundle the
tracking helpers return: `state` is stored in `fsmBySymbol`, the flags go
on the appended row. -/
structure TrackingResult where
  state : SignalTracking
  alternateSignal : Bool
  buySellSell : Bool
  sellBuyBuy : Bool
deriving DecidableEq, Repr

/-- `FilterMode` of WebhookStateService; the source spells the
constructors `zerodha6`, `btc`, `btc-long`, `btc-short` and `none`. -/
inductive FilterMode where
  | zerodha6
  | btc
  | btcLong
  | btcShort
  | modeNone
deriving DecidableEq, Repr

/-- Webhook payload fields the signal reducer reads. -/
structure WebhookPayload where
  symbol : Option String
  stoppx : Option ℚ
  intent : Option String
  side : Option String

/-- `SignalState` of WebhookStateService. -/
structure SignalState where
  bySymbol : List (String × List SignalRow)
  fsmBySymbol : List (String × SignalTracking)
  paperTradesBySymbol : List (String × List TradeRow)
  symbols : List String

/-- `initialSignalState()`. -/
def initialSignalState : SignalState :=
  { bySymbol := []
    fsmBySymbol := []
    paperTradesBySymbol := []
    symbols := [] }

/-- `normalizeString`: trim, empty becomes null. -/
def normalizeString (value : Option String) : Option String :=
  match value with
  | none => none
  | some s =>
    let text := s.trim
    if text.length > 0 then some text else none

/-- `getSignalType` of WebhookStateService: a single intent-first-else-side
candidate, uppercased; ENTRY maps to BUY and EXIT to SELL. -/
def getSignalType (intent side : Option String) : Option Signal :=
  let candidate :=
    (match intent with
     | some s => s
     | none =>
       match side with
       | some s2 => s2
       | none => "").toUpper
  if candidate = "BUY" ∨ candidate = "ENTRY" then some .BUY
  else if candidate = "SELL" ∨ candidate = "EXIT" then some .SELL
  else none

/-- `isSignalAllowed`: the long mode accepts only BUY, the short mode only
SELL. -/
def isSignalAllowed (mode : FilterMode) (signal : Option Signal) : Bool :=
  match mode with
  | .btcLong => signal = some Signal.BUY
  | .btcShort => signal = some Signal.SELL
  | _ => true

/-- `isBtcMode`. -/
def isBtcMode (mode : FilterMode) : Bool :=
  mode = .btc ∨ mode = .btcLong ∨ mode = .btcShort

/-- `isZerodhaMode`. -/
def isZerodhaMode (mode : FilterMode) : Bool :=
  mode = .zerodha6

/-- `mapSymbolForMode` of WebhookStateService: broker-6 maps through the
tv-to-broker symbol map; the crypto long/short modes map BTCUSDT/BTCUSD to
their synthetic symbols. -/
def mapSymbolForMode (symbol : String) (mode : FilterMode)
    (symbolMap : List (String × String)) : String :=
  if mode = .zerodha6 then
    (lookupS symbolMap symbol).getD symbol
  else
    let upper := symbol.toUpper
    if mode = .btcLong ∧ (upper = "BTCUSDT" ∨ upper = "BTCUSD") then
      "BTCUSDT_LONG"
    else if mode = .btcShort ∧ (upper = "BTCUSDT" ∨ upper = "BTCUSD") then
      "BTCUSDT_SHORT"
    else
      symbol

/-- `nextTracking` of WebhookStateService (the general, sticky-flag
rule). -/
def nextTracking (tracking : SignalTracking) (signal : Option Signal)
    (snapshot : Option Snap) : TrackingResult :=
  let alternateSignalNow : Bool :=
    tracking.lastSignal ≠ none ∧ signal ≠ none ∧ tracking.lastSignal ≠ signal
  let alternateSignal := tracking.alternateSignal || alternateSignalNow
  let counters : ℕ × ℕ :=
    match signal with
    | some .SELL =>
      (if tracking.lastSignal = some Signal.BUY then
        tracking.sellAfterBuyCount + 1 else 0, 0)
    | some .BUY =>
      (0, if tracking.lastSignal = some Signal.SELL then
        tracking.buyAfterSellCount + 1 else 0)
    | none => (tracking.sellAfterBuyCount, tracking.buyAfterSellCount)
  let sellAfterBuyCount := counters.1
  let buyAfterSellCount := counters.2
  let snapshotLtp : Option ℚ :=
    match snapshot with
    | some sn => sn.ltp
    | none => none
  let canUseSnapshot : Bool :=
    (match snapshot with
     | some sn => decide (sn.state = .NOPOSITION_SIGNAL)
     | none => false) && snapshotLtp.isSome
  let buySellSellEligible : Bool :=
    decide (signal = some Signal.SELL) && decide (sellAfterBuyCount ≥ 2)
      && canUseSnapshot
      && (match snapshot, snapshotLtp with
          | some sn, some l =>
            match sn.lastBUYThreshold with
            | some b => decide (l < b)
            | none => false
          | _, _ => false)
  let sellBuyBuyEligible : Bool :=
    decide (signal = some Signal.BUY) && decide (buyAfterSellCount ≥ 2)
      && canUseSnapshot
      && (match snapshot, snapshotLtp with
          | some sn, some l =>
            match sn.lastSELLThreshold with
            | some b => decide (l < b)
            | none => false
          | _, _ => false)
  let buySellSell := tracking.buySellSell || buySellSellEligible
  let sellBuyBuy := tracking.sellBuyBuy || sellBuyBuyEligible
  { state :=
      { lastSignal :=
          match signal with
          | some s => some s
          | none => tracking.lastSignal
        sellAfterBuyCount := sellAfterBuyCount
        buyAfterSellCount := buyAfterSellCount
        alternateSignal := alternateSignal
        buySellSell := buySellSell
        sellBuyBuy := sellBuyBuy }
    alternateSignal := alternateSignal
    buySellSell := buySellSell
    sellBuyBuy := sellBuyBuy }

/-- The per-symbol auxiliary maps of the broker-6 tracking rule
(`zerodhaSellCountAfterBuyBySymbol` and
`zerodhaPendingBuySellSellBySymbol`). -/
structure ZerodhaAux where
  sellCountBySymbol : List (String × ℕ)
  pending : List String
deriving DecidableEq, Repr

/-- Empty auxiliary maps. -/
def initialZerodhaAux : ZerodhaAux :=
  { sellCountBySymbol := [], pending := [] }

/-- JS `Set.add`. -/
def setAdd (l : List String) (s : String) : List String :=
  if l.contains s then l else s :: l

/-- JS `Set.delete`. -/
def setDelete (l : List String) (s : String) : List String :=
  l.filter fun x => !(x == s)

/-- `updateZerodhaSellAfterBuyCount` of WebhookStateService. -/
def updateZerodhaSellAfterBuyCount (zaux : ZerodhaAux) (symbol : String)
    (signal lastSignal : Option Signal) : ℕ × ZerodhaAux :=
  let current := (lookupS zaux.sellCountBySymbol symbol).getD 0
  match signal with
  | some .SELL =>
    if lastSignal = some Signal.BUY ∨ current > 0 then
      let next := current + 1
      (next, { zaux with
        sellCountBySymbol := mapSet zaux.sellCountBySymbol symbol next })
    else
      (current, zaux)
  | some .BUY =>
    (0, { zaux with
      sellCountBySymbol := mapSet zaux.sellCountBySymbol symbol 0 })
  | none => (current, zaux)

/-- `applyZerodhaBuySellSell` of WebhookStateService: fires when the
symbol is pending, the FSM is idle and the price sits below the last BUY
threshold; the FSM write-back and the cumulative reset are the emitted
events. -/
def applyZerodhaBuySellSell (symbol : String) (snapshot : Option Snap)
    (zaux : ZerodhaAux) : Bool × ZerodhaAux × List EngineEvent :=
  if !(zaux.pending.contains symbol) then
    (false, zaux, [])
  else
    match snapshot with
    | none => (false, zaux, [])
    | some snap =>
      if isPositionState snap.state then
        (false, zaux, [])
      else
        match snap.lastBUYThreshold, snap.ltp with
        | some buyTh, some l =>
          if l ≥ buyTh then
            (false, zaux, [])
          else
            (true,
             { sellCountBySymbol := mapSet zaux.sellCountBySymbol symbol 0
               pending := setDelete zaux.pending symbol },
             [.fsmRearm symbol buyTh, .cumulativeReset symbol])
        | _, _ => (false, zaux, [])

/-- `nextZerodhaTracking` of WebhookStateService: non-sticky flags, the
alternation resets the cumulative P&L (emitted event), the second SELL
after a BUY marks the symbol pending, and an applicable pending is applied
at once, clearing the flag. -/
def nextZerodhaTracking (tracking : SignalTracking) (signal : Option Signal)
    (symbol : String) (snapshot : Option Snap) (zaux : ZerodhaAux) :
    TrackingResult × ZerodhaAux × List EngineEvent :=
  let alternateSignalNow : Bool :=
    tracking.lastSignal ≠ none ∧ signal ≠ none ∧ tracking.lastSignal ≠ signal
  let evsAlt : List EngineEvent :=
    if alternateSignalNow then [.cumulativeReset symbol] else []
  let counted := updateZerodhaSellAfterBuyCount zaux symbol signal
    tracking.lastSignal
  let sellCountAfterBuy := counted.1
  let buySellSell0 : Bool := decide (sellCountAfterBuy ≥ 2)
  let zaux2 :=
    if buySellSell0 then
      { counted.2 with pending := setAdd counted.2.pending symbol }
    else
      counted.2
  let applied := applyZerodhaBuySellSell symbol snapshot zaux2
  let buySellSell := if applied.1 then false else buySellSell0
  ({ state :=
      { lastSignal :=
          match signal with
          | some s => some s
          | none => tracking.lastSignal
        sellAfterBuyCount := 0
        buyAfterSellCount := sellCountAfterBuy
        alternateSignal := false
        buySellSell := buySellSell
        sellBuyBuy := false }
     alternateSignal := false
     buySellSell := buySellSell
     sellBuyBuy := false },
   applied.2.1, evsAlt ++ applied.2.2)

/-- `reduceSignalState` of WebhookStateService, with the auxiliary maps
and external effects made explicit. -/
def reduceSignalState (state : SignalState) (payload : WebhookPayload)
    (snapshot : String → Option Snap) (allowedSymbols : Option (List String))
    (mode : FilterMode) (symbolMap : List (String × String))
    (zaux : ZerodhaAux) (nowIst : String) :
    SignalState × ZerodhaAux × List EngineEvent :=
  let rawSymbol := payload.symbol.getD ""
  let symbol := mapSymbolForMode rawSymbol mode symbolMap
  if symbol = "" then
    (state, zaux, [])
  else
    let allowedOk : Bool :=
      match allowedSymbols with
      | none => true
      | some allowed =>
        let allowedKey := if isZerodhaMode mode then symbol else rawSymbol
        allowed.contains allowedKey
    if !allowedOk then
      (state, zaux, [])
    else
      let intent := normalizeString payload.intent
      let signal := getSignalType intent (normalizeString payload.side)
      if !(isSignalAllowed mode signal) then
        (state, zaux, [])
      else
        let tracking := (lookupS state.fsmBySymbol symbol).getD
          defaultTracking
        let next :=
          if isBtcMode mode then
            ({ state := defaultTracking, alternateSignal := false,
               buySellSell := false, sellBuyBuy := false },
             zaux, ([] : List EngineEvent))
          else if isZerodhaMode mode then
            nextZerodhaTracking tracking signal symbol (snapshot symbol) zaux
          else
            (nextTracking tracking signal (snapshot symbol), zaux, [])
        let nextRow : SignalRow :=
          { timeIst := nowIst
            intent := intent
            stoppx := payload.stoppx
            alternateSignal := next.1.alternateSignal
            buySellSell := next.1.buySellSell
            sellBuyBuy := next.1.sellBuyBuy }
        let bySymbol := mapSet state.bySymbol symbol
          ((nextRow :: (lookupS state.bySymbol symbol).getD []).take 50)
        let fsmBySymbol := mapSet state.fsmBySymbol symbol next.1.state
        let symbols :=
          if state.symbols.contains symbol then
            state.symbols
          else
            state.symbols ++ [symbol]
        ({ bySymbol := bySymbol
           fsmBySymbol := fsmBySymbol
           paperTradesBySymbol := state.paperTradesBySymbol
           symbols := symbols },
         next.2.1, next.2.2)

/-- One webhook event of the fold: the payload together with the latest
FSM snapshot, the allow-set, the symbol map and the formatted time the
reducer sees for it. -/
structure WebhookEvent where
  payload : WebhookPayload
  snapshot : String → Option Snap
  allowedSymbols : Option (List String)
  symbolMap : List (String × String)
  nowIst : String

/-- One subscription step of the per-mode signal state. -/
def signalStep (mode : FilterMode) (acc : SignalState × ZerodhaAux)
    (ev : WebhookEvent) : SignalState × ZerodhaAux :=
  let r := reduceSignalState acc.1 ev.payload ev.snapshot ev.allowedSymbols
    mode ev.symbolMap acc.2 ev.nowIst
  (r.1, r.2.1)

/-- The per-mode signal state after a sequence of webhook events, starting
from the initial state. -/
def runSignalEvents (mode : FilterMode) (events : List WebhookEvent) :
    SignalState × ZerodhaAux :=
  events.foldl (signalStep mode) (initialSignalState, initialZerodhaAux)

end TradingFsm

namespace TradingFsm

/-- Helper: lookup after a `Map.set`. -/
lemma lookupS_mapSet {α : Type} (m : List (String × α)) (k k' : String)
    (v : α) :
    lookupS (mapSet m k v) k' =
      if k = k' then some v else lookupS m k' := by
  induction m with
  | nil => simp [mapSet, lookupS]
  | cons head tail ih =>
    obtain ⟨kk, vv⟩ := head
    by_cases h1 : kk = k
    · subst h1
      by_cases h2 : kk = k'
      · subst h2
        simp [mapSet, lookupS]
      · simp [mapSet, lookupS, h2]
    · by_cases h2 : kk = k'
      · subst h2
        have hne : ¬k = kk := fun he => h1 he.symm
        simp [mapSet, lookupS, h1, hne]
      · simp [mapSet, lookupS, h1, h2, ih]

/-- Every recorded signal row has all three pattern flags false. -/
def RowsFlagsClear (st : SignalState) : Prop :=
  ∀ sym rows, lookupS st.bySymbol sym = some rows →
    ∀ r ∈ rows,
      r.alternateSignal = false ∧ r.buySellSell = false
        ∧ r.sellBuyBuy = false

/-- Every stored tracking equals the default tracking. -/
def TrackingCleared (st : SignalState) : Prop :=
  ∀ sym t, lookupS st.fsmBySymbol sym = some t → t = defaultTracking

/-- Helper: in the crypto modes one reduction step preserves both
invariants — the accepted branch stores `defaultTracking` and appends a
row with all flags false. -/
lemma reduceSignalState_btc_invariant (st : SignalState)
    (p : WebhookPayload) (snap : String → Option Snap)
    (allowed : Option (List String)) (mode : FilterMode)
    (smap : List (String × String)) (za : ZerodhaAux) (ist : String)
    (hmode : isBtcMode mode = true)
    (hrows : RowsFlagsClear st) (htr : TrackingCleared st) :
    RowsFlagsClear (reduceSignalState st p snap allowed mode smap za ist).1
    ∧ TrackingCleared
        (reduceSignalState st p snap allowed mode smap za ist).1 := by
  have main : ∀ (syms : List String),
      RowsFlagsClear (SignalState.mk
        (mapSet st.bySymbol (mapSymbolForMode (p.symbol.getD "") mode smap)
          (List.take 50
            ({ timeIst := ist, intent := normalizeString p.intent,
               stoppx := p.stoppx, alternateSignal := false,
               buySellSell := false, sellBuyBuy := false } ::
              (lookupS st.bySymbol
                (mapSymbolForMode (p.symbol.getD "") mode smap)).getD [])))
        (mapSet st.fsmBySymbol
          (mapSymbolForMode (p.symbol.getD "") mode smap) defaultTracking)
        st.paperTradesBySymbol syms)
      ∧ TrackingCleared (SignalState.mk
        (mapSet st.bySymbol (mapSymbolForMode (p.symbol.getD "") mode smap)
          (List.take 50
            ({ timeIst := ist, intent := normalizeString p.intent,
               stoppx := p.stoppx, alternateSignal := false,
               buySellSell := false, sellBuyBuy := false } ::
              (lookupS st.bySymbol
                (mapSymbolForMode (p.symbol.getD "") mode smap)).getD [])))
        (mapSet st.fsmBySymbol
          (mapSymbolForMode (p.symbol.getD "") mode smap) defaultTracking)
        st.paperTradesBySymbol syms) := by
    intro syms
    constructor
    · intro sym rows hlook r hr
      simp only [lookupS_mapSet] at hlook
      split_ifs at hlook with hk
      · cases hlook
        have hmem := List.take_subset 50 _ hr
        rcases List.mem_cons.mp hmem with hhead | htail
        · subst hhead
          exact ⟨rfl, rfl, rfl⟩
        · rcases hold : lookupS st.bySymbol
              (mapSymbolForMode (p.symbol.getD "") mode smap) with _ | l
          · rw [hold] at htail
            simp at htail
          · rw [hold] at htail
            exact hrows _ l hold r htail
      · exact hrows sym rows hlook r hr
    · intro sym t hlook
      simp only [lookupS_mapSet] at hlook
      split_ifs at hlook with hk
      · cases hlook
        rfl
      · exact htr sym t hlook
  unfold reduceSignalState
  simp only [hmode, if_true]
  split_ifs <;> first | exact ⟨hrows, htr⟩ | exact main _

/-- C10: in the crypto filter modes (btc, btc-long, btc-short), after any
sequence of webhook events starting from the empty signal state, every
stored SignalTracking is the default value and every recorded SignalRow
has alternate_signal, buy_sell_sell and sell_buy_buy all false: each
accepted webhook stores `defaultTracking` and a row whose flags come from
the all-false crypto-mode tracking result. -/
theorem c10_crypto_reset_and_clear_flags (mode : FilterMode)
    (events : List WebhookEvent) (hmode : isBtcMode mode = true) :
    RowsFlagsClear (runSignalEvents mode events).1
    ∧ TrackingCleared (runSignalEvents mode events).1 := by
  unfold runSignalEvents
  have key : ∀ (l : List WebhookEvent) (acc : SignalState × ZerodhaAux),
      RowsFlagsClear acc.1 → TrackingCleared acc.1 →
      RowsFlagsClear ((l.foldl (signalStep mode) acc)).1
      ∧ TrackingCleared ((l.foldl (signalStep mode) acc)).1 := by
    intro l
    induction l with
    | nil =>
      intro acc hr ht
      exact ⟨hr, ht⟩
    | cons head tail ih =>
      intro acc hr ht
      rw [List.foldl_cons]
      have hstep := reduceSignalState_btc_invariant acc.1 head.payload
        head.snapshot head.allowedSymbols mode head.symbolMap acc.2
        head.nowIst hmode hr ht
      exact ih _ hstep.1 hstep.2
  refine key events (initialSignalState, initialZerodhaAux) ?_ ?_
  · intro sym rows h
    simp [initialSignalState, lookupS] at h
  · intro sym t h
    simp [initialSignalState, lookupS] at h

/-- C10 witness: the theorem applied to a concrete BUY webhook in the
crypto combined mode. -/
theorem c10_witness :
    RowsFlagsClear (runSignalEvents .btc
        [{ payload :=
            { symbol := some "BTCUSDT", stoppx := some 100,
              intent := some "BUY", side := none }
           snapshot := fun _ => none
           allowedSymbols := none
           symbolMap := []
           nowIst := "t" }]).1
    ∧ TrackingCleared (runSignalEvents .btc
        [{ payload :=
            { symbol := some "BTCUSDT", stoppx := some 100,
              intent := some "BUY", side := none }
           snapshot := fun _ => none
           allowedSymbols := none
           symbolMap := []
           nowIst := "t" }]).1 :=
  c10_crypto_reset_and_clear_flags .btc
    [{ payload :=
        { symbol := some "BTCUSDT", stoppx := some 100,
          intent := some "BUY", side := none }
       snapshot := fun _ => none
       allowedSymbols := none
       symbolMap := []
       nowIst := "t" }] (by decide)

end TradingFsm
